import Mathlib

/-!
Verification of the eval-coach evaluator / comparison templates
(`src/templates/evaluators.py`, `src/templates/compare.py`).

Shallow embedding conventions:
* Python numbers (ints and floats) are modelled as rationals (`ℚ`);
  decimal string formatting is canonicalized (round half up).
* Python dicts are insertion-ordered association lists with `String` keys.
* Python exceptions are modelled with `Except String`; an evaluator that can
  raise returns `Except String EvalResult`.
* The judge collaborator (LLM invocation followed by `json.loads` of its
  reply, both inside the evaluators' `try` blocks) is one injected function
  `String → Except String Value`: `.error` is any transport / parse
  exception, `.ok v` the parsed JSON reply.
-/

namespace EvalCoach

/-- Dynamic (JSON-like) Python value, as stored in run / example dicts. -/
inductive Value where
  | vnone : Value
  | vbool : Bool → Value
  | vnum  : Rat → Value
  | vstr  : String → Value
  | vlist : List Value → Value
  | vdict : List (String × Value) → Value

/-- Python truthiness (`bool(v)`). -/
def Value.truthy : Value → Bool
  | .vnone => false
  | .vbool b => b
  | .vnum q => q != 0
  | .vstr s => !s.isEmpty
  | .vlist l => !l.isEmpty
  | .vdict d => !d.isEmpty

/-- `v is None`. -/
def Value.isNone : Value → Bool
  | .vnone => true
  | _ => false

/-- Python numeric coercion for arithmetic: ints/floats and bools are
numbers, everything else raises `TypeError` at the operation. -/
def toNum : Value → Option Rat
  | .vnum q => some q
  | .vbool b => some (if b then 1 else 0)
  | _ => none

/-- `d.get(k, dflt)` on a string-keyed dict (generic in the value type). -/
def dgetD {α : Type} : List (String × α) → String → α → α
  | [], _, dflt => dflt
  | p :: rest, k, dflt => if p.1 == k then p.2 else dgetD rest k dflt

/-- `d.get(k)` / `k in d` style lookup returning an `Option`. -/
def aggLookup {α : Type} : List (String × α) → String → Option α
  | [], _ => none
  | p :: rest, k => if p.1 == k then some p.2 else aggLookup rest k

/-- Python `a or b` (returns `a` when truthy, else `b`). -/
def pyOr (a b : Value) : Value := if a.truthy then a else b

/-- Truthiness of `run.error` (an optional string): `if run.error:`. -/
def errTruthy : Option String → Bool
  | some s => !s.isEmpty
  | none => false

/-- Canonical decimal/ratio rendering of a rational; Python's `str()` of a
number is canonicalized to this form (no claim inspects its exact shape). -/
def ratStr (q : Rat) : String :=
  if q.den == 1 then toString q.num else toString q.num ++ "/" ++ toString q.den

/-- Python `repr(v)`.  String quoting uses single quotes as CPython does. -/
def pyRepr : Value → String
  | .vnone => "None"
  | .vbool b => cond b "True" "False"
  | .vnum q => ratStr q
  | .vstr s => "\x27" ++ s ++ "\x27"
  | .vlist l => "[" ++ String.intercalate ", " (l.attach.map (fun x => pyRepr x.1)) ++ "]"
  | .vdict d => "\x7b" ++ String.intercalate ", " (d.attach.map (fun x => "\x27" ++ x.1.1 ++ "\x27: " ++ pyRepr x.1.2)) ++ "\x7d"
termination_by v => sizeOf v
decreasing_by
  · have := List.sizeOf_lt_of_mem x.2
    simp [Value.vlist.sizeOf_spec]; omega
  · rcases x with ⟨⟨u, w⟩, hx⟩
    have h := List.sizeOf_lt_of_mem hx
    simp at h
    simp [Value.vdict.sizeOf_spec]; omega

/-- Python `str(v)` (also the behaviour of an f-string slot):
identity on strings, `repr` otherwise. -/
def pyFormat : Value → String
  | .vstr s => s
  | v => pyRepr v

/-- Python `==` between dynamic values.  Booleans compare equal to the
numbers 0/1 as in Python.  Dict comparison requires equal size and each
left entry to match a right entry by key (dict keys are unique). -/
def pyEq : Value → Value → Bool
  | .vnone, .vnone => true
  | .vbool a, .vbool b => a == b
  | .vbool a, .vnum q => (if a then (1 : Rat) else 0) == q
  | .vnum q, .vbool b => q == (if b then (1 : Rat) else 0)
  | .vnum a, .vnum b => a == b
  | .vstr a, .vstr b => a == b
  | .vlist a, .vlist b =>
      a.length == b.length && (a.zip b).attach.all (fun x => pyEq x.1.1 x.1.2)
  | .vdict a, .vdict b =>
      a.length == b.length && a.attach.all (fun x =>
        match (b.find? (fun p => p.1 == x.1.1)) with
        | some p => pyEq x.1.2 p.2
        | none => false)
  | _, _ => false
termination_by v _ => sizeOf v
decreasing_by
  · rcases x with ⟨⟨u, w⟩, hx⟩
    have h := (List.of_mem_zip hx).1
    have := List.sizeOf_lt_of_mem h
    simp [Value.vlist.sizeOf_spec]; omega
  · rcases x with ⟨⟨u, w⟩, hx⟩
    have h := List.sizeOf_lt_of_mem hx
    simp at h
    simp [Value.vdict.sizeOf_spec]; omega

/-- Python `x in l` for a list (membership by `==`). -/
def pyMem (x : Value) (l : List Value) : Bool := l.any (fun y => pyEq x y)

/-- JSON string escaping as in `json.dumps` (common escapes; exotic control
characters are canonicalized away, no claim depends on them). -/
def jsonEscape (s : String) : String :=
  s.foldl (fun acc c =>
    acc ++ (if c = '"' then "\\\"" else if c = '\\' then "\\\\"
            else if c = '\n' then "\\n" else if c = '\t' then "\\t"
            else if c = '\r' then "\\r" else String.singleton c)) ""

/-- `json.dumps(v)` with default separators. -/
def jsonDumps : Value → String
  | .vnone => "null"
  | .vbool b => cond b "true" "false"
  | .vnum q => ratStr q
  | .vstr s => "\"" ++ jsonEscape s ++ "\""
  | .vlist l => "[" ++ String.intercalate ", " (l.attach.map (fun x => jsonDumps x.1)) ++ "]"
  | .vdict d => "\x7b" ++ String.intercalate ", " (d.attach.map (fun x => "\"" ++ jsonEscape x.1.1 ++ "\": " ++ jsonDumps x.1.2)) ++ "\x7d"
termination_by v => sizeOf v
decreasing_by
  · have := List.sizeOf_lt_of_mem x.2
    simp [Value.vlist.sizeOf_spec]; omega
  · rcases x with ⟨⟨u, w⟩, hx⟩
    have h := List.sizeOf_lt_of_mem hx
    simp at h
    simp [Value.vdict.sizeOf_spec]; omega

/-- Python substring test `sub in text`. -/
def strContains (text sub : String) : Bool :=
  sub.isEmpty || (text.splitOn sub).length != 1

/-- `len(v)`: defined for strings, lists and dicts, `TypeError` otherwise. -/
def pyLen : Value → Except String Nat
  | .vstr s => .ok s.length
  | .vlist l => .ok l.length
  | .vdict d => .ok d.length
  | _ => .error "TypeError: object has no len()"

/-- Python iteration `for x in v`: list elements, string characters,
dict keys; `TypeError` otherwise. -/
def pyIter : Value → Except String (List Value)
  | .vstr s => .ok (s.toList.map (fun c => .vstr (String.singleton c)))
  | .vlist l => .ok l
  | .vdict d => .ok (d.map (fun p => .vstr p.1))
  | _ => .error "TypeError: object is not iterable"

/-- `d.get(k)` where the key is itself a dynamic value: unhashable keys
(lists, dicts) raise; other non-string keys never match a string key. -/
def pyGetKey (d : List (String × Value)) (k : Value) : Except String Value :=
  match k with
  | .vlist _ => .error "TypeError: unhashable type"
  | .vdict _ => .error "TypeError: unhashable type"
  | .vstr s => .ok (dgetD d s .vnone)
  | _ => .ok .vnone

/-- `v.get(k, dflt)` on a value expected to be a dict
(`AttributeError` when it is not). -/
def pyDictGet (v : Value) (k : String) (dflt : Value) : Except String Value :=
  match v with
  | .vdict d => .ok (dgetD d k dflt)
  | _ => .error "AttributeError: object has no attribute get"

/-- `v[k]` subscript on a parsed JSON value: `KeyError` on a dict without
the key, `TypeError` on a non-dict. -/
def pySubscript (v : Value) (k : String) : Except String Value :=
  match v with
  | .vdict d =>
      match aggLookup d k with
      | some x => .ok x
      | none => .error ("KeyError: " ++ k)
  | _ => .error "TypeError: value is not subscriptable"

/-- `v.lower()`: strings only. -/
def pyLowerV : Value → Except String String
  | .vstr s => .ok s.toLower
  | _ => .error "AttributeError: object has no attribute lower"

/-- `v[:n]` slicing: strings and lists only. -/
def pySlice (v : Value) (n : Nat) : Except String Value :=
  match v with
  | .vstr s => .ok (.vstr (s.take n))
  | .vlist l => .ok (.vlist (l.take n))
  | _ => .error "TypeError: object is not subscriptable"

/-- `a / b` where `b` is a dynamic value: `TypeError` on a non-numeric
divisor, `ZeroDivisionError` on zero. -/
def pyDivQ (a : Rat) (b : Value) : Except String Rat :=
  match toNum b with
  | none => .error "TypeError: unsupported operand type for /"
  | some m => if m = 0 then .error "ZeroDivisionError: division by zero" else .ok (a / m)

/-- `a / b` with both operands dynamic. -/
def pyDivVQ (a : Value) (b : Value) : Except String Rat :=
  match toNum a with
  | none => .error "TypeError: unsupported operand type for /"
  | some x => pyDivQ x b

/-- Fixed-point decimal rendering of a rational, Python's `f"{q:.df}"`
(rounding canonicalized to half away from zero). -/
def fmtFixed (d : Nat) (q : Rat) : String :=
  let n : Int := ⌊|q| * (10 : Rat) ^ d + 1 / 2⌋
  let np : Nat := n.toNat
  let ip : Nat := np / 10 ^ d
  let fps : String := toString (np % 10 ^ d)
  let fpad : String := String.mk (List.replicate (d - fps.length) '0') ++ fps
  (if q < 0 then "-" else "") ++ toString ip ++ (if d = 0 then "" else "." ++ fpad)

/-- Left-justify to width `w` (`f"{s:<w}"`). -/
def padRight (w : Nat) (s : String) : String :=
  s ++ String.mk (List.replicate (w - s.length) ' ')

/-- Right-justify to width `w` (`f"{s:>w}"`). -/
def padLeft (w : Nat) (s : String) : String :=
  String.mk (List.replicate (w - s.length) ' ') ++ s

/-- A recorded run (`langsmith.schemas.Run`), restricted to the fields the
evaluators read.  Timestamps are modelled as rational seconds, so
`(end_time - start_time).total_seconds()` is plain subtraction. -/
structure PyRun where
  outputs : Option (List (String × Value)) := none
  error : Option String := none
  start_time : Option Rat := none
  end_time : Option Rat := none
  extra : Option (List (String × Value)) := none
  inputs : Option (List (String × Value)) := none

/-- A dataset example (`langsmith.schemas.Example`); evaluators read only
its `outputs` expectation record. -/
structure PyExample where
  outputs : List (String × Value) := []

/-- The dict an evaluator returns: `{"key": ..., "score": ..., "comment": ...}`.
`score` and `comment` stay dynamic because the judge-backed evaluators can
store raw judge-reply fields in them. -/
structure EvalResult where
  key : String
  score : Value
  comment : Value

/-- A judge collaborator: prompt in, parsed JSON reply (or any
transport/parse exception) out. -/
abbrev Judge := String → Except String Value

/-- Main-text extraction with `""` defaults:
`output.get("final_report", "") or output.get("output", "") or output.get("response", "")`. -/
def mainText (output : List (String × Value)) : Value :=
  pyOr (dgetD output "final_report" (.vstr ""))
    (pyOr (dgetD output "output" (.vstr "")) (dgetD output "response" (.vstr "")))

/-- Main-output presence test with `None` defaults, as in
`graceful_error_evaluator`'s `has_output`. -/
def anyOutput (output : List (String × Value)) : Value :=
  pyOr (dgetD output "final_report" .vnone)
    (pyOr (dgetD output "output" .vnone) (dgetD output "response" .vnone))

/-- The comprehension `[f for f in expected if output.get(f) is not None]`
(raises on unhashable field names, as `dict.get` does). -/
def presentFields (output : List (String × Value)) : List Value → Except String (List Value)
  | [] => .ok []
  | f :: rest =>
      match pyGetKey output f with
      | .error e => .error e
      | .ok v =>
          match presentFields output rest with
          | .error e => .error e
          | .ok tail => .ok (if v.isNone then tail else f :: tail)

/-- `schema_evaluator`. -/
def schema_evaluator (run : PyRun) (ex : PyExample) : Except String EvalResult :=
  let output := run.outputs.getD []
  let expected := dgetD ex.outputs "expected_fields" (.vlist [])
  if !expected.truthy then
    .ok ⟨"schema_valid", .vnum 1, .vstr "No expected fields defined"⟩
  else
    match pyIter expected with
    | .error e => .error e
    | .ok items =>
        match presentFields output items with
        | .error e => .error e
        | .ok present =>
            let missing := items.filter (fun f => !pyMem f present)
            match pyLen expected with
            | .error e => .error e
            | .ok n =>
                let score : Rat := (present.length : Rat) / (n : Rat)
                let comment :=
                  if score = 1 then
                    "All fields present (" ++ toString present.length ++ "/" ++ toString n ++ ")"
                  else "Missing: " ++ pyFormat (.vlist missing)
                .ok ⟨"schema_valid", .vnum score, .vstr comment⟩

/-- The two comprehensions of `keyword_coverage_evaluator`, fused (both
iterate the same list and raise at the first non-string keyword):
returns (found, missing). -/
def kwSplit (text : String) : List Value → Except String (List Value × List Value)
  | [] => .ok ([], [])
  | kw :: rest =>
      match pyLowerV kw with
      | .error e => .error e
      | .ok s =>
          match kwSplit text rest with
          | .error e => .error e
          | .ok (f, m) =>
              .ok (if strContains text s then (kw :: f, m) else (f, kw :: m))

/-- `keyword_coverage_evaluator`. -/
def keyword_coverage_evaluator (run : PyRun) (ex : PyExample) : Except String EvalResult :=
  let output := run.outputs.getD []
  let shouldMention := dgetD ex.outputs "should_mention" (.vlist [])
  if !shouldMention.truthy then
    .ok ⟨"keyword_coverage", .vnum 1, .vstr "No keywords to check"⟩
  else
    let outputText := (jsonDumps (.vdict output)).toLower
    match pyIter shouldMention with
    | .error e => .error e
    | .ok kws =>
        match kwSplit outputText kws with
        | .error e => .error e
        | .ok (found, missing) =>
            match pyLen shouldMention with
            | .error e => .error e
            | .ok n =>
                let score : Rat := (found.length : Rat) / (n : Rat)
                let comment :=
                  if score = 1 then
                    "All keywords found (" ++ toString found.length ++ "/" ++ toString n ++ ")"
                  else "Missing: " ++ pyFormat (.vlist missing)
                .ok ⟨"keyword_coverage", .vnum score, .vstr comment⟩

/-- `report_length_evaluator`. -/
def report_length_evaluator (run : PyRun) (ex : PyExample) : Except String EvalResult :=
  let output := run.outputs.getD []
  let response := mainText output
  let minLen := dgetD ex.outputs "min_report_length" (.vnum 0)
  if !minLen.truthy then
    .ok ⟨"report_length", .vnum 1, .vstr "No minimum length defined"⟩
  else
    match pyLen response with
    | .error e => .error e
    | .ok actual =>
        match pyDivQ (actual : Rat) minLen with
        | .error e => .error e
        | .ok ratio =>
            let score := min 1 ratio
            let comment :=
              if score < 1 then
                "Too short: " ++ toString actual ++ " chars < " ++ pyFormat minLen ++ " minimum"
              else "Length OK: " ++ toString actual ++ " chars"
            .ok ⟨"report_length", .vnum score, .vstr comment⟩

/-- `graceful_error_evaluator` (raises nothing: every operation it performs
is total). -/
def graceful_error_evaluator (run : PyRun) (ex : PyExample) : EvalResult :=
  let shouldHandle := dgetD ex.outputs "should_handle_gracefully" (.vbool false)
  if !shouldHandle.truthy then
    ⟨"graceful_error", .vnum 1, .vstr "Not an error case"⟩
  else if errTruthy run.error then
    ⟨"graceful_error", .vnum 0, .vstr ("Agent crashed: " ++ run.error.getD "")⟩
  else
    let output := run.outputs.getD []
    if (anyOutput output).truthy then
      ⟨"graceful_error", .vnum 1, .vstr "Handled gracefully with output"⟩
    else
      ⟨"graceful_error", .vnum (1 / 2), .vstr "No crash but no output either"⟩

/-- `latency_evaluator`.  Note the unguarded `latency / max_latency`. -/
def latency_evaluator (run : PyRun) (ex : PyExample) : Except String EvalResult :=
  let maxLatency := dgetD ex.outputs "max_latency_seconds" (.vnum 30)
  match run.start_time, run.end_time with
  | some s, some e =>
      let latency := e - s
      match pyDivQ latency maxLatency with
      | .error err => .error err
      | .ok ratio =>
          let score := max 0 (1 - ratio)
          .ok ⟨"latency_seconds", .vnum score,
            .vstr (fmtFixed 2 latency ++ "s (threshold: " ++ pyFormat maxLatency ++ "s)")⟩
  | _, _ => .ok ⟨"latency_seconds", .vnum (1 / 2), .vstr "No timing data available"⟩

/-- `token_efficiency_evaluator`.  Note the unguarded
`total_tokens / max_tokens`. -/
def token_efficiency_evaluator (run : PyRun) (ex : PyExample) : Except String EvalResult :=
  let maxTokens := dgetD ex.outputs "max_tokens" (.vnum 10000)
  let extra := run.extra.getD []
  let tokenUsage := dgetD extra "token_usage" (.vdict [])
  match pyDictGet tokenUsage "total_tokens" (.vnum 0) with
  | .error e => .error e
  | .ok totalTokens =>
      if !totalTokens.truthy then
        .ok ⟨"token_efficiency", .vnum (1 / 2), .vstr "No token data available"⟩
      else
        match pyDivVQ totalTokens maxTokens with
        | .error e => .error e
        | .ok ratio =>
            .ok ⟨"token_efficiency", .vnum (max 0 (1 - ratio)),
              .vstr (pyFormat totalTokens ++ " tokens (threshold: " ++ pyFormat maxTokens ++ ")")⟩

/-- The `judge_prompt` f-string of `quality_evaluator` (embeds
`response[:3000]`). -/
def qualityPrompt (response : Value) : Except String String :=
  match pySlice response 3000 with
  | .error e => .error e
  | .ok r =>
      .ok ("Evaluate this output on a scale of 1-5.\n\nOutput to evaluate:\n"
        ++ pyFormat r
        ++ "\n\nRubric:\n- 5: Excellent - comprehensive, accurate, well-structured\n- 4: Good - mostly complete, minor issues\n- 3: Adequate - basic but acceptable\n- 2: Poor - significant issues\n- 1: Failing - incorrect or unusable\n\nReturn JSON: \x7b\"score\": 1-5, \"reasoning\": \"brief explanation\"\x7d\n")

/-- The `try` block shared verbatim by `quality_evaluator` and
`relevance_evaluator`: invoke + parse the judge, subscript `["score"]`,
divide by 5, read `"reasoning"`; any exception becomes the 0.5 sentinel
with the message in the comment. -/
def judgeScoreTry (key : String) (judge : Judge) (prompt : String) : EvalResult :=
  let attempt : Except String EvalResult :=
    match judge prompt with
    | .error e => .error e
    | .ok parsed =>
        match pySubscript parsed "score" with
        | .error e => .error e
        | .ok sv =>
            match pyDivVQ sv (.vnum 5) with
            | .error e => .error e
            | .ok q =>
                match pyDictGet parsed "reasoning" (.vstr "") with
                | .error e => .error e
                | .ok reasoning => .ok ⟨key, .vnum q, reasoning⟩
  match attempt with
  | .ok r => r
  | .error e => ⟨key, .vnum (1 / 2), .vstr ("Judge error: " ++ e)⟩

/-- `quality_evaluator`. -/
def quality_evaluator (judge : Judge) (run : PyRun) (_ex : PyExample) :
    Except String EvalResult :=
  let output := run.outputs.getD []
  let response := mainText output
  if !response.truthy then
    .ok ⟨"quality", .vnum 0, .vstr "No output to evaluate"⟩
  else
    match qualityPrompt response with
    | .error e => .error e
    | .ok p => .ok (judgeScoreTry "quality" judge p)

/-- The `judge_prompt` f-string of `relevance_evaluator` (embeds the query
and `response[:2000]`). -/
def relevancePrompt (query response : Value) : Except String String :=
  match pySlice response 2000 with
  | .error e => .error e
  | .ok r =>
      .ok ("Is this response relevant to the query?\n\nQuery: " ++ pyFormat query
        ++ "\nResponse: " ++ pyFormat r
        ++ "\n\nScore 1-5:\n- 5: Directly addresses the query\n- 3: Partially relevant\n- 1: Off-topic or irrelevant\n\nReturn JSON: \x7b\"score\": 1-5, \"reasoning\": \"brief explanation\"\x7d\n")

/-- `relevance_evaluator`. -/
def relevance_evaluator (judge : Judge) (run : PyRun) (_ex : PyExample) :
    Except String EvalResult :=
  let inputs := run.inputs.getD []
  let output := run.outputs.getD []
  let query := pyOr (dgetD inputs "query" (.vstr ""))
    (pyOr (dgetD inputs "target" (.vstr "")) (.vstr ((pyFormat (.vdict inputs)).take 500)))
  let response := mainText output
  if !response.truthy then
    .ok ⟨"relevance", .vnum 0, .vstr "No output to evaluate"⟩
  else
    match relevancePrompt query response with
    | .error e => .error e
    | .ok p => .ok (judgeScoreTry "relevance" judge p)

/-- The `judge_prompt` f-string of `input_data_consistency_evaluator`
(embeds the target, the claimed company and `report[:3000]`). -/
def consistencyPrompt (target company report : Value) : Except String String :=
  match pySlice report 3000 with
  | .error e => .error e
  | .ok r =>
      .ok ("Analyze this research report for input-data consistency.\n\nUSER INPUT:\n- Target: "
        ++ pyFormat target ++ "\n- Company claimed: " ++ pyFormat company
        ++ "\n\nREPORT:\n" ++ pyFormat r
        ++ "\n\nQUESTIONS:\n1. Does the report confirm the person actually works at \""
        ++ pyFormat company
        ++ "\"?\n2. If the source data shows a DIFFERENT company, did the agent:\n   a) Explicitly flag the mismatch? (GOOD)\n   b) Silently reconcile by finding tangential connections? (BAD)\n   c) Ignore the mismatch entirely? (BAD)\n\nSCORING:\n- 1.0: Data matches OR agent explicitly flagged mismatch\n- 0.5: Minor discrepancy, agent partially addressed\n- 0.0: Major mismatch silently reconciled (hallucination risk)\n\nReturn JSON: \x7b\"score\": 0.0-1.0, \"mismatch_found\": true/false, \"reasoning\": \"explanation\"\x7d\n")

/-- `input_data_consistency_evaluator`.  Its `try` block reads
`result.get("score", 0.5)` (so a reply missing the field silently scores
0.5) and stores it raw, unclamped, in the returned dict. -/
def input_data_consistency_evaluator (judge : Judge) (run : PyRun) (_ex : PyExample) :
    Except String EvalResult :=
  let inputs := run.inputs.getD []
  let output := run.outputs.getD []
  let target := pyOr (dgetD inputs "linkedin_url" (.vstr "")) (dgetD inputs "target" (.vstr ""))
  let company := pyOr (dgetD inputs "company_name" (.vstr "")) (dgetD inputs "company" (.vstr ""))
  let report := mainText output
  if !report.truthy || !company.truthy then
    .ok ⟨"input_data_consistency", .vnum 1, .vstr "No company/report to verify"⟩
  else
    match consistencyPrompt target company report with
    | .error e => .error e
    | .ok p =>
        let attempt : Except String EvalResult :=
          match judge p with
          | .error e => .error e
          | .ok result =>
              match pyDictGet result "score" (.vnum (1 / 2)) with
              | .error e => .error e
              | .ok sv =>
                  match pyDictGet result "mismatch_found" (.vstr "unknown") with
                  | .error e => .error e
                  | .ok mf =>
                      match pyDictGet result "reasoning" (.vstr "") with
                      | .error e => .error e
                      | .ok rs =>
                          .ok ⟨"input_data_consistency", sv,
                            .vstr ("Mismatch: " ++ pyFormat mf ++ " - " ++ pyFormat rs)⟩
        .ok (match attempt with
          | .ok r => r
          | .error e => ⟨"input_data_consistency", .vnum (1 / 2), .vstr ("Judge error: " ++ e)⟩)

/-- `needs_human_review` (the `or` chain short-circuits exactly as in
Python: `response.lower()` is only reached when `len(response) >= 200`). -/
def needs_human_review (run : PyRun) (_ex : PyExample) : Except String EvalResult :=
  let output := run.outputs.getD []
  let response := mainText output
  match pyLen response with
  | .error e => .error e
  | .ok n =>
      if n < 200 then
        .ok ⟨"needs_human_review", .vnum 0, .vstr "Flagged for human review"⟩
      else
        match pyLowerV response with
        | .error e => .error e
        | .ok s =>
            let needsReview := strContains s "error" || strContains s "sorry"
              || strContains s "unable to" || run.error.isSome
            if needsReview then
              .ok ⟨"needs_human_review", .vnum 0, .vstr "Flagged for human review"⟩
            else
              .ok ⟨"needs_human_review", .vnum 1, .vstr "Auto-approved"⟩

/-! ## `compare.py` -/

/-- A root run fetched for an experiment, restricted to what the comparator
reads.  Per the FeedbackStats contract, each metric key maps to a stats
dict (`{"avg": float, ...}`) with numeric values. -/
structure CRun where
  feedback_stats : Option (List (String × List (String × Rat))) := none
deriving DecidableEq

/-- Truthiness of `run.feedback_stats` (`if run.feedback_stats:`). -/
def fbTruthy : Option (List (String × List (String × Rat))) → Bool
  | some l => !l.isEmpty
  | none => false

/-- The filter `if metrics and key not in metrics: continue`:
`True` exactly when the key is skipped (note an empty `metrics` list is
falsy, so it disables filtering just like `None`). -/
def metricsSkip (metrics : Option (List String)) (key : String) : Bool :=
  match metrics with
  | none => false
  | some l => !l.isEmpty && !(l.contains key)

/-- `exp_metrics` accumulation: `if key not in exp_metrics:
exp_metrics[key] = []` then `exp_metrics[key].append(v)` (insertion
ordered, value appended to the first entry with that key). -/
def addStat : List (String × List Rat) → String → Rat → List (String × List Rat)
  | [], k, v => [(k, [v])]
  | p :: rest, k, v =>
      if p.1 == k then (p.1, p.2 ++ [v]) :: rest else p :: addStat rest k v

/-- The inner `for key, stats in run.feedback_stats.items()` loop. -/
def processStats (skip : String → Bool) :
    List (String × List Rat) → List (String × List (String × Rat)) → List (String × List Rat)
  | em, [] => em
  | em, (key, stats) :: rest =>
      processStats skip (if skip key then em else addStat em key (dgetD stats "avg" 0)) rest

/-- The outer `for run in experiments` loop building `exp_metrics`. -/
def processRuns (skip : String → Bool) :
    List (String × List Rat) → List CRun → List (String × List Rat)
  | em, [] => em
  | em, r :: rs =>
      processRuns skip
        (if fbTruthy r.feedback_stats then processStats skip em (r.feedback_stats.getD []) else em)
        rs

/-- The final `{key: sum(vals) / len(vals) if vals else 0 ...}` reduction. -/
def averages (em : List (String × List Rat)) : List (String × Rat) :=
  em.map (fun p => (p.1, if p.2.isEmpty then 0 else p.2.sum / (p.2.length : Rat)))

/-- One experiment's aggregation: runs → metric → mean of per-run `avg`s. -/
def expAverages (skip : String → Bool) (runs : List CRun) : List (String × Rat) :=
  averages (processRuns skip [] runs)

/-- Python dict assignment `d[k] = v` on an assoc list (replace in place,
else append; `compare_experiments` only crosses the replace branch when an
experiment name is listed twice). -/
def dinsert {α : Type} : List (String × α) → String → α → List (String × α)
  | [], k, v => [(k, v)]
  | p :: rest, k, v => if p.1 == k then (p.1, v) :: rest else p :: dinsert rest k v

/-- The `for exp_name in experiment_names` loop of `compare_experiments`.
The first component collects the printed warnings, the second is the
`comparison` dict. -/
def compareLoop (fetch : String → List CRun) (skip : String → Bool) :
    List String → List (String × List (String × Rat)) → List String →
    List String × List (String × List (String × Rat))
  | warns, comp, [] => (warns, comp)
  | warns, comp, n :: rest =>
      let runs := fetch n
      if runs.isEmpty then
        compareLoop fetch skip (warns ++ ["Warning: No runs found for " ++ n]) comp rest
      else
        compareLoop fetch skip warns (dinsert comp n (expAverages skip runs)) rest

/-- `compare_experiments(experiment_names, metrics)`.  The run-storage fetch
(`client.list_runs(project_name=..., is_root=True)`) is the injected
`fetch` collaborator; printed warnings are returned alongside the
comparison mapping. -/
def compare_experiments (fetch : String → List CRun) (experiment_names : List String)
    (metrics : Option (List String)) :
    List String × List (String × List (String × Rat)) :=
  compareLoop fetch (metricsSkip metrics) [] [] experiment_names

/-- Union of metric keys over all experiments, deduplicated and sorted
(`sorted(all_metrics)` over the accumulated set). -/
def metricKeys (comparison : List (String × List (String × Rat))) : List String :=
  ((comparison.flatMap (fun p => p.2.map (·.1))).dedup).mergeSort (fun a b => a ≤ b)

/-- Per-metric column values in experiment order:
`comparison[exp_name].get(metric, 0)` (dict keys are unique, so the
subscript is the entry itself). -/
def metricValues (comparison : List (String × List (String × Rat))) (metric : String) :
    List Rat :=
  comparison.map (fun p => dgetD p.2 metric 0)

/-- Python `max(values)` on a non-empty list (0 as the junk value on `[]`,
never consulted: the call sites guarantee non-emptiness). -/
def maxList : List Rat → Rat
  | [] => 0
  | x :: xs => xs.foldl max x

/-- Python `min(values)`, same conventions as `maxList`. -/
def minList : List Rat → Rat
  | [] => 0
  | x :: xs => xs.foldl min x

/-- The winner-highlight step of `print_comparison`: `values.index(max(values))`
then `exp_names[winner_idx]`, emitted only when `values and
max(values) != min(values)`. -/
def bestFor (expNames : List String) (values : List Rat) : Option String :=
  if !values.isEmpty && maxList values != minList values then
    expNames[values.indexOf (maxList values)]?
  else none

/-- `print_comparison`, as the list of printed lines. -/
def print_comparison (comparison : List (String × List (String × Rat))) : List String :=
  if comparison.isEmpty then ["No comparison data available"]
  else
    let expNames := comparison.map (·.1)
    let header := padRight 25 "Metric" ++ " | "
      ++ String.intercalate " | " (expNames.map (padRight 15))
    [header, String.mk (List.replicate header.length '-')]
    ++ (metricKeys comparison).flatMap (fun metric =>
      let values := metricValues comparison metric
      let row := padRight 25 metric ++ " | "
        ++ String.join (values.map (fun v => padLeft 15 (fmtFixed 3 v) ++ " | "))
      [row] ++ (match bestFor expNames values with
        | some w => ["  -> Best: " ++ w]
        | none => []))

/-- The bolding fold of `generate_report`: each cell compares its value
against `max(values)` of the *prefix built so far* (the code appends to
`values` inside the same loop that renders the cell). -/
def reportRowAux (metric : String) : String → List Rat →
    List (String × List (String × Rat)) → String
  | row, _, [] => row
  | row, values, p :: rest =>
      let val := dgetD p.2 metric 0
      let values2 := values ++ [val]
      let cell :=
        if val = maxList values2 then " **" ++ fmtFixed 3 val ++ "** |"
        else " " ++ fmtFixed 3 val ++ " |"
      reportRowAux metric (row ++ cell) values2 rest

/-- One summary-table row of `generate_report`. -/
def reportRow (comparison : List (String × List (String × Rat))) (metric : String) : String :=
  reportRowAux metric ("| " ++ metric ++ " |") [] comparison

/-- `totals = {exp: sum(metrics.values())}`. -/
def totalsOf (comparison : List (String × List (String × Rat))) : List (String × Rat) :=
  comparison.map (fun p => (p.1, (p.2.map (·.2)).sum))

/-- Python `max(iterable, key=...)`: first element attaining the maximum
(later elements replace the champion only when strictly greater). -/
def pyMaxBy (l : List (String × Rat)) : Option (String × Rat) :=
  match l with
  | [] => none
  | x :: xs => some (xs.foldl (fun best y => if y.2 > best.2 then y else best) x)

/-- `generate_report`, as the list of report lines (the optional
`output_file` side effect is a boundary concern and is not modelled;
the returned string is `"\n".join` of these lines). -/
def generateReportLines (comparison : List (String × List (String × Rat))) : List String :=
  if comparison.isEmpty then
    ["# Experiment Comparison Report\n", "No comparison data available.\n"]
  else
    ["# Experiment Comparison Report\n", "## Summary\n",
     "| Metric | " ++ String.intercalate " | " (comparison.map (·.1)) ++ " |",
     "|" ++ String.join (List.replicate (comparison.length + 1) "---|")]
    ++ (metricKeys comparison).map (fun metric => reportRow comparison metric)
    ++ ["\n## Recommendations\n"]
    ++ (match pyMaxBy (totalsOf comparison) with
        | some w => ["- **Overall Best**: " ++ w.1 ++ " (highest total score)"]
        | none => [])

/-- `generate_report`'s return value. -/
def generate_report (comparison : List (String × List (String × Rat))) : String :=
  String.intercalate "\n" (generateReportLines comparison)

/-! ## Specification-level helpers used by the theorems -/

/-- The `avg` values one stats item list contributes to metric `k`
(respecting the metrics filter). -/
def statsVals (skip : String → Bool) (k : String)
    (items : List (String × List (String × Rat))) : List Rat :=
  items.filterMap (fun it =>
    if !(skip it.1) && it.1 == k then some (dgetD it.2 "avg" 0) else none)

/-- What one run contributes to metric `k`: nothing at all when its
feedback stats are falsy. -/
def runContrib (skip : String → Bool) (k : String) (r : CRun) : List Rat :=
  if fbTruthy r.feedback_stats then statsVals skip k (r.feedback_stats.getD []) else []

/-- All per-run `avg` values collected for metric `k` over a run list. -/
def runsVals (skip : String → Bool) (k : String) (runs : List CRun) : List Rat :=
  runs.flatMap (runContrib skip k)

/-- Combine an accumulator entry (possibly absent) with newly appended
values: absent stays absent only when nothing is appended. -/
def mergeOpt (o : Option (List Rat)) (l : List Rat) : Option (List Rat) :=
  match o, l with
  | none, [] => none
  | _, _ => some (o.getD [] ++ l)

/-- Arithmetic mean. -/
def meanQ (l : List Rat) : Rat := l.sum / (l.length : Rat)

/-- Metric value of one experiment in an Aggregation, by name and key. -/
def aggVal (comp : List (String × List (String × Rat))) (n k : String) : Option Rat :=
  (aggLookup comp n).bind (fun em => aggLookup em k)

/-- "The score is a number in the closed interval [0,1]". -/
def scoreIn01 (v : Value) : Prop := ∃ q : Rat, v = .vnum q ∧ 0 ≤ q ∧ q ≤ 1

/-- All values of a list are identical. -/
def allEqQ (l : List Rat) : Prop := ∀ v ∈ l, ∀ u ∈ l, v = u

/-! ### Concrete fixtures for counterexamples and witnesses -/

/-- Run with timestamps, for the zero-latency-threshold failing input. -/
def runZeroLat : PyRun := { start_time := some 0, end_time := some 1 }

/-- Expectation record with a zero `max_latency_seconds`. -/
def exZeroLat : PyExample := ⟨[("max_latency_seconds", .vnum 0)]⟩

/-- Run with recorded token usage, for the zero-token-threshold input. -/
def runZeroTok : PyRun :=
  { extra := some [("token_usage", .vdict [("total_tokens", .vnum 5)])] }

/-- Expectation record with a zero `max_tokens`. -/
def exZeroTok : PyExample := ⟨[("max_tokens", .vnum 0)]⟩

/-- A judge whose reply carries a score of 10 on the 1-5 scale. -/
def judgeTen : Judge := fun _ => .ok (.vdict [("score", .vnum 10)])

/-- A run with a short non-empty main output. -/
def runHello : PyRun := { outputs := some [("final_report", .vstr "hello")] }

/-- A judge stub that raises on every invocation. -/
def judgeBoom : Judge := fun _ => .error "boom"

/-- A well-behaved judge: score 4 on the 1-5 scale, with a reasoning. -/
def judgeFour : Judge := fun _ => .ok (.vdict [("score", .vnum 4), ("reasoning", .vstr "fine")])

/-- A judge returning a JSON object that lacks the score field. -/
def judgeNoScore : Judge := fun _ => .ok (.vdict [("reasoning", .vstr "hm")])

/-- Run whose inputs claim a company but whose outputs are empty. -/
def runNoReport : PyRun :=
  { outputs := some [], inputs := some [("company", .vstr "Acme")] }

/-- Run with both a company input and a report output. -/
def runAcme : PyRun :=
  { outputs := some [("final_report", .vstr "report text")],
    inputs := some [("company", .vstr "Acme")] }

/-- Graceful-degradation counterexample run: the error is *set* but is the
empty string, and output is present. -/
def runEmptyErr : PyRun :=
  { outputs := some [("final_report", .vstr "ok")], error := some "" }

/-- Expectation record flagging must-degrade-gracefully. -/
def exGraceful : PyExample := ⟨[("should_handle_gracefully", .vbool true)]⟩

/-- The two-experiment scenario Aggregation of the spec:
`A={accuracy:0.9, latency:0.8}`, `B={accuracy:0.95, latency:0.4}`
(rationals written with `mkRat`, which the kernel evaluates). -/
def comparisonAB : List (String × List (String × Rat)) :=
  [("A", [("accuracy", mkRat 9 10), ("latency", mkRat 8 10)]),
   ("B", [("accuracy", mkRat 95 100), ("latency", mkRat 4 10)])]

/-- Partial-tie Aggregation: two experiments share the maximum. -/
def comparisonTie : List (String × List (String × Rat)) :=
  [("expA", [("m", mkRat 9 10)]), ("expB", [("m", mkRat 9 10)]),
   ("expC", [("m", mkRat 1 2)])]

/-- Failing input for the bold-the-best rule: the first cell is not the
row maximum. -/
def comparisonBold : List (String × List (String × Rat)) :=
  [("A", [("m", mkRat 1 2)]), ("B", [("m", mkRat 9 10)])]

/-- Two runs with disjoint single-metric stats, for permutation witnesses. -/
def runM1 : CRun := ⟨some [("m", [("avg", mkRat 1 2)])]⟩

/-- Second permutation-witness run. -/
def runM2 : CRun := ⟨some [("m", [("avg", 1)])]⟩

/-- A fetch collaborator with one two-run experiment. -/
def fetchE1 : String → List CRun := fun n => if n = "e1" then [runM1, runM2] else []

/-- The same collaborator with the two runs swapped. -/
def fetchE1swap : String → List CRun := fun n => if n = "e1" then [runM2, runM1] else []

/-! ## Helper lemmas: comparator characterization -/

theorem dgetD_eq_aggLookup {α : Type} (d : List (String × α)) (k : String) (dflt : α) :
    dgetD d k dflt = (aggLookup d k).getD dflt := by
  induction d with
  | nil => rfl
  | cons p rest ih =>
      simp only [dgetD, aggLookup]
      split <;> simp [ih]

theorem mergeOpt_nil (o : Option (List Rat)) : mergeOpt o [] = o := by
  cases o <;> simp [mergeOpt]

theorem mergeOpt_push (o : Option (List Rat)) (v : Rat) (l : List Rat) :
    mergeOpt (some (o.getD [] ++ [v])) l = mergeOpt o (v :: l) := by
  cases o <;> simp [mergeOpt]

theorem mergeOpt_append (o : Option (List Rat)) (l1 l2 : List Rat) :
    mergeOpt (mergeOpt o l1) l2 = mergeOpt o (l1 ++ l2) := by
  cases o <;> cases l1 <;> cases l2 <;> simp [mergeOpt]

theorem aggLookup_addStat (em : List (String × List Rat)) (k k2 : String) (v : Rat) :
    aggLookup (addStat em k v) k2 =
      if k = k2 then some ((aggLookup em k2).getD [] ++ [v]) else aggLookup em k2 := by
  induction em with
  | nil =>
      simp only [addStat, aggLookup]
      by_cases h : k = k2 <;> simp [h, beq_iff_eq]
  | cons p rest ih =>
      simp only [addStat]
      by_cases h1 : p.1 = k
      · simp only [h1, beq_self_eq_true, if_true, aggLookup]
        by_cases h2 : k = k2 <;> simp [h2, beq_iff_eq]
      · simp only [beq_iff_eq, h1, if_false, aggLookup]
        by_cases h2 : p.1 = k2
        · have hk : k ≠ k2 := fun he => h1 (he ▸ h2)
          simp [h2, hk]
        · simp [h2, ih]

theorem aggLookup_processStats (skip : String → Bool) (em : List (String × List Rat))
    (items : List (String × List (String × Rat))) (k : String) :
    aggLookup (processStats skip em items) k =
      mergeOpt (aggLookup em k) (statsVals skip k items) := by
  induction items generalizing em with
  | nil => simp [processStats, statsVals, mergeOpt_nil]
  | cons it rest ih =>
      obtain ⟨key, stats⟩ := it
      by_cases hs : skip key
      · rw [show processStats skip em ((key, stats) :: rest) = processStats skip em rest from by
          simp [processStats, hs]]
        rw [ih]
        congr 1
        simp [statsVals, hs]
      · rw [show processStats skip em ((key, stats) :: rest)
            = processStats skip (addStat em key (dgetD stats "avg" 0)) rest from by
          simp [processStats, hs]]
        rw [ih, aggLookup_addStat]
        by_cases hk : key = k
        · subst hk
          rw [if_pos rfl, mergeOpt_push]
          congr 1
          simp [statsVals, hs]
        · simp only [hk, if_false]
          congr 1
          simp [statsVals, hs, hk]

theorem aggLookup_processRuns (skip : String → Bool) (em : List (String × List Rat))
    (runs : List CRun) (k : String) :
    aggLookup (processRuns skip em runs) k =
      mergeOpt (aggLookup em k) (runsVals skip k runs) := by
  induction runs generalizing em with
  | nil => simp [processRuns, runsVals, mergeOpt_nil]
  | cons r rest ih =>
      simp only [processRuns, runsVals, List.flatMap_cons]
      by_cases hf : fbTruthy r.feedback_stats
      · simp only [hf, if_true]
        rw [ih, aggLookup_processStats, mergeOpt_append]
        simp [runContrib, hf, runsVals]
      · simp only [hf, if_false]
        rw [ih]
        simp [runContrib, hf, runsVals]

theorem aggLookup_averages (em : List (String × List Rat)) (k : String) :
    aggLookup (averages em) k =
      (aggLookup em k).map
        (fun vals => if vals.isEmpty then 0 else vals.sum / (vals.length : Rat)) := by
  induction em with
  | nil => rfl
  | cons p rest ih =>
      simp only [averages, aggLookup, List.map_cons]
      split <;> simp_all [averages]

theorem expAverages_lookup (skip : String → Bool) (runs : List CRun) (k : String) :
    aggLookup (expAverages skip runs) k =
      match runsVals skip k runs with
      | [] => none
      | l => some (meanQ l) := by
  unfold expAverages
  rw [aggLookup_averages, aggLookup_processRuns]
  simp only [aggLookup]
  cases h : runsVals skip k runs with
  | nil => simp [mergeOpt]
  | cons x xs => simp [mergeOpt, meanQ]

theorem aggLookup_dinsert {α : Type} (d : List (String × α)) (k n : String) (v : α) :
    aggLookup (dinsert d k v) n = if k = n then some v else aggLookup d n := by
  induction d with
  | nil =>
      simp only [dinsert, aggLookup]
      by_cases h : k = n <;> simp [h, beq_iff_eq]
  | cons p rest ih =>
      simp only [dinsert]
      by_cases h1 : p.1 = k
      · simp only [beq_iff_eq, h1, if_true, aggLookup]
        by_cases h2 : k = n <;> simp [h1, h2, beq_iff_eq]
      · simp only [beq_iff_eq, h1, if_false, aggLookup]
        by_cases h2 : p.1 = n
        · have : k ≠ n := fun he => h1 (h2 ▸ he ▸ rfl)
          simp [h2, this]
        · simp [h2, ih]

theorem compareLoop_warns_mono (fetch : String → List CRun) (skip : String → Bool)
    (warns : List String) (comp : List (String × List (String × Rat)))
    (names : List String) (w : String) (hw : w ∈ warns) :
    w ∈ (compareLoop fetch skip warns comp names).1 := by
  induction names generalizing warns comp with
  | nil => simpa [compareLoop] using hw
  | cons n rest ih =>
      simp only [compareLoop]
      split
      · exact ih _ _ (by simp [hw])
      · exact ih _ _ hw

theorem compareLoop_warning (fetch : String → List CRun) (skip : String → Bool)
    (warns : List String) (comp : List (String × List (String × Rat)))
    (names : List String) (n : String) (hn : n ∈ names) (hf : fetch n = []) :
    ("Warning: No runs found for " ++ n) ∈ (compareLoop fetch skip warns comp names).1 := by
  induction names generalizing warns comp with
  | nil => cases hn
  | cons m rest ih =>
      simp only [compareLoop]
      rcases List.mem_cons.mp hn with he | hr
      · subst he
        simp only [hf, List.isEmpty_nil, if_true]
        exact compareLoop_warns_mono _ _ _ _ _ _ (by simp)
      · split
        · exact ih _ _ hr
        · exact ih _ _ hr

theorem compareLoop_lookup (fetch : String → List CRun) (skip : String → Bool)
    (warns : List String) (comp : List (String × List (String × Rat)))
    (names : List String) (n : String) :
    aggLookup (compareLoop fetch skip warns comp names).2 n =
      if n ∈ names ∧ fetch n ≠ [] then some (expAverages skip (fetch n))
      else aggLookup comp n := by
  induction names generalizing warns comp with
  | nil => simp [compareLoop]
  | cons m rest ih =>
      simp only [compareLoop]
      by_cases hm : (fetch m).isEmpty
      · have hm' : fetch m = [] := List.isEmpty_iff.mp hm
        rw [if_pos hm, ih]
        by_cases hn : n = m
        · subst hn
          simp [hm']
        · simp [List.mem_cons, hn]
      · have hm' : fetch m ≠ [] := fun he => hm (by simp [he])
        rw [if_neg hm, ih]
        by_cases hn : n = m
        · subst hn
          by_cases hr : n ∈ rest ∧ fetch n ≠ []
          · simp [hr, List.mem_cons, hm']
          · simp only [hr, if_false, aggLookup_dinsert, if_pos rfl]
            simp [List.mem_cons, hm']
        · by_cases hr : n ∈ rest ∧ fetch n ≠ []
          · simp [hr, List.mem_cons, hr.1]
          · have hcons : ¬(n ∈ m :: rest ∧ fetch n ≠ []) := by
              rintro ⟨hmem, hne⟩
              rcases List.mem_cons.mp hmem with he | hr2
              · exact hn he
              · exact hr ⟨hr2, hne⟩
            rw [if_neg hr, if_neg hcons, aggLookup_dinsert,
              if_neg (fun he : m = n => hn he.symm)]

/-! ## Helper lemmas: max / min / first-argmax folds -/

theorem foldl_max_mem (x : Rat) (xs : List Rat) : xs.foldl max x ∈ x :: xs := by
  induction xs generalizing x with
  | nil => simp
  | cons y ys ih =>
      simp only [List.foldl_cons]
      have h := ih (max x y)
      rcases List.mem_cons.mp h with h2 | h2
      · rw [h2]
        rcases max_choice x y with h3 | h3 <;> simp [h3]
      · simp [h2]

theorem le_foldl_max (x : Rat) (xs : List Rat) :
    x ≤ xs.foldl max x ∧ ∀ v ∈ xs, v ≤ xs.foldl max x := by
  induction xs generalizing x with
  | nil => simp
  | cons y ys ih =>
      simp only [List.foldl_cons]
      have h := ih (max x y)
      refine ⟨le_trans (le_max_left x y) h.1, ?_⟩
      intro v hv
      rcases List.mem_cons.mp hv with rfl | hv2
      · exact le_trans (le_max_right x v) h.1
      · exact h.2 v hv2

theorem maxList_mem (l : List Rat) (h : l ≠ []) : maxList l ∈ l := by
  cases l with
  | nil => exact absurd rfl h
  | cons x xs => simpa [maxList] using foldl_max_mem x xs

theorem le_maxList (l : List Rat) (v : Rat) (hv : v ∈ l) : v ≤ maxList l := by
  cases l with
  | nil => cases hv
  | cons x xs =>
      rcases List.mem_cons.mp hv with rfl | h2
      · exact (le_foldl_max v xs).1
      · exact (le_foldl_max x xs).2 v h2

theorem foldl_min_mem (x : Rat) (xs : List Rat) : xs.foldl min x ∈ x :: xs := by
  induction xs generalizing x with
  | nil => simp
  | cons y ys ih =>
      simp only [List.foldl_cons]
      have h := ih (min x y)
      rcases List.mem_cons.mp h with h2 | h2
      · rw [h2]
        rcases min_choice x y with h3 | h3 <;> simp [h3]
      · simp [h2]

theorem foldl_min_le (x : Rat) (xs : List Rat) :
    xs.foldl min x ≤ x ∧ ∀ v ∈ xs, xs.foldl min x ≤ v := by
  induction xs generalizing x with
  | nil => simp
  | cons y ys ih =>
      simp only [List.foldl_cons]
      have h := ih (min x y)
      refine ⟨le_trans h.1 (min_le_left x y), ?_⟩
      intro v hv
      rcases List.mem_cons.mp hv with rfl | hv2
      · exact le_trans h.1 (min_le_right x v)
      · exact h.2 v hv2

theorem minList_mem (l : List Rat) (h : l ≠ []) : minList l ∈ l := by
  cases l with
  | nil => exact absurd rfl h
  | cons x xs => simpa [minList] using foldl_min_mem x xs

theorem minList_le (l : List Rat) (v : Rat) (hv : v ∈ l) : minList l ≤ v := by
  cases l with
  | nil => cases hv
  | cons x xs =>
      rcases List.mem_cons.mp hv with rfl | h2
      · exact (foldl_min_le v xs).1
      · exact (foldl_min_le x xs).2 v h2

theorem maxList_eq_minList_iff (l : List Rat) (h : l ≠ []) :
    maxList l = minList l ↔ allEqQ l := by
  constructor
  · intro heq v hv u hu
    have h1 : v ≤ maxList l := le_maxList l v hv
    have h2 : minList l ≤ v := minList_le l v hv
    have h3 : u ≤ maxList l := le_maxList l u hu
    have h4 : minList l ≤ u := minList_le l u hu
    rw [heq] at h1 h3
    linarith
  · intro ha
    exact ha _ (maxList_mem l h) _ (minList_mem l h)

theorem foldl_maxBy_mem (x : String × Rat) (xs : List (String × Rat)) :
    xs.foldl (fun best y => if y.2 > best.2 then y else best) x ∈ x :: xs := by
  induction xs generalizing x with
  | nil => simp
  | cons y ys ih =>
      simp only [List.foldl_cons]
      have h := ih (if y.2 > x.2 then y else x)
      rcases List.mem_cons.mp h with h2 | h2
      · rw [h2]
        split <;> simp
      · simp [h2]

theorem foldl_maxBy_ge (x : String × Rat) (xs : List (String × Rat)) :
    x.2 ≤ (xs.foldl (fun best y => if y.2 > best.2 then y else best) x).2
    ∧ ∀ y ∈ xs, y.2 ≤ (xs.foldl (fun best y => if y.2 > best.2 then y else best) x).2 := by
  induction xs generalizing x with
  | nil => simp
  | cons y ys ih =>
      simp only [List.foldl_cons]
      have h := ih (if y.2 > x.2 then y else x)
      have hx : x.2 ≤ (if y.2 > x.2 then y else x).2 := by
        split <;> [linarith [show y.2 > x.2 by assumption]; exact le_refl _]
      have hy : y.2 ≤ (if y.2 > x.2 then y else x).2 := by
        by_cases hc : y.2 > x.2
        · simp [hc]
        · simp only [hc, if_false]
          linarith [le_of_not_lt hc]
      refine ⟨le_trans hx h.1, ?_⟩
      intro z hz
      rcases List.mem_cons.mp hz with rfl | hz2
      · exact le_trans hy h.1
      · exact h.2 z hz2

theorem pyMaxBy_spec (l : List (String × Rat)) (h : l ≠ []) :
    ∃ w t, pyMaxBy l = some (w, t) ∧ (w, t) ∈ l ∧ ∀ p ∈ l, p.2 ≤ t := by
  cases l with
  | nil => exact absurd rfl h
  | cons x xs =>
      refine ⟨(xs.foldl (fun best y => if y.2 > best.2 then y else best) x).1,
        (xs.foldl (fun best y => if y.2 > best.2 then y else best) x).2, by simp [pyMaxBy], ?_, ?_⟩
      · simpa using foldl_maxBy_mem x xs
      · intro p hp
        rcases List.mem_cons.mp hp with rfl | hp2
        · exact (foldl_maxBy_ge p xs).1
        · exact (foldl_maxBy_ge x xs).2 p hp2

/-! ## Helper lemmas: evaluators -/

theorem presentFields_length (output : List (String × Value)) (l : List Value)
    (p : List Value) (h : presentFields output l = .ok p) : p.length ≤ l.length := by
  induction l generalizing p with
  | nil =>
      simp only [presentFields] at h
      injection h with h1
      simp [← h1]
  | cons f rest ih =>
      simp only [presentFields] at h
      cases hg : pyGetKey output f with
      | error e => rw [hg] at h; cases h
      | ok v =>
          rw [hg] at h
          cases hr : presentFields output rest with
          | error e => rw [hr] at h; cases h
          | ok tail =>
              rw [hr] at h
              injection h with h1
              have := ih tail hr
              by_cases hn : v.isNone
              · rw [if_pos hn] at h1
                simp only [← h1, List.length_cons]
                omega
              · rw [if_neg (by simpa using hn)] at h1
                simp only [← h1, List.length_cons]
                omega

theorem kwSplit_length (text : String) (l f m : List Value)
    (h : kwSplit text l = .ok (f, m)) : f.length ≤ l.length := by
  induction l generalizing f m with
  | nil =>
      simp only [kwSplit] at h
      injection h with h1
      injection h1 with hf hm
      simp [← hf]
  | cons kw rest ih =>
      simp only [kwSplit] at h
      cases hg : pyLowerV kw with
      | error e => rw [hg] at h; cases h
      | ok s =>
          rw [hg] at h
          cases hr : kwSplit text rest with
          | error e => rw [hr] at h; cases h
          | ok pr =>
              obtain ⟨f2, m2⟩ := pr
              rw [hr] at h
              injection h with h1
              have := ih f2 m2 hr
              by_cases hc : strContains text s
              · rw [if_pos hc] at h1
                have hf : f = kw :: f2 := (congrArg Prod.fst h1).symm
                simp [hf]
                omega
              · rw [if_neg hc] at h1
                have hf : f = f2 := (congrArg Prod.fst h1).symm
                simp [hf]
                omega

theorem pyIter_pyLen (v : Value) (l : List Value) (h : pyIter v = .ok l) :
    pyLen v = .ok l.length := by
  cases v <;> simp only [pyIter, pyLen] at h ⊢ <;> cases h <;>
    first
      | rfl
      | (simp only [List.length_map]; try rfl)

theorem pyIter_ne_nil (v : Value) (l : List Value) (hv : v.truthy = true)
    (h : pyIter v = .ok l) : l ≠ [] := by
  intro hnil
  subst hnil
  cases v with
  | vstr s =>
      simp only [pyIter] at h
      injection h with h1
      have hs : s.toList = [] := by simpa using h1
      have hs2 : s = "" := by
        cases s with
        | mk data => simpa [String.toList] using congrArg String.mk hs
      rw [hs2] at hv
      exact absurd hv (by decide)
  | vlist xs =>
      simp only [pyIter] at h
      injection h with h1
      subst h1
      simp [Value.truthy] at hv
  | vdict d =>
      simp only [pyIter] at h
      injection h with h1
      have hd : d = [] := by simpa using h1
      subst hd
      simp [Value.truthy] at hv
  | vnone => simp [pyIter] at h
  | vbool b => simp [pyIter] at h
  | vnum q => simp [pyIter] at h

/-! ## Claim theorems -/

/-- C1: the claim says every evaluator is total, converting internal
failures into the 0.5 sentinel.  The code contradicts this stated contract:
with a zero `max_latency_seconds` (resp. `max_tokens`) threshold the
unguarded division raises `ZeroDivisionError` past the evaluator boundary
instead of producing any `EvalResult`. -/
theorem c1_zero_threshold_raises :
    latency_evaluator runZeroLat exZeroLat = .error "ZeroDivisionError: division by zero"
    ∧ token_efficiency_evaluator runZeroTok exZeroTok
        = .error "ZeroDivisionError: division by zero" := ⟨rfl, rfl⟩

/-- C9 counterexample: `run.error` is *set* (to the empty string) and the
case is flagged as must-degrade-gracefully, yet the evaluator does not
return 0.0 — the truthiness test `if run.error:` treats `""` as no error
and the evaluator returns 1.0 for the present output. -/
theorem c9_counterexample :
    runEmptyErr.error = some ""
    ∧ graceful_error_evaluator runEmptyErr exGraceful
        = ⟨"graceful_error", .vnum 1, .vstr "Handled gracefully with output"⟩
    ∧ Value.vnum 1 ≠ Value.vnum 0 := by
  refine ⟨rfl, rfl, ?_⟩
  simp

/-- C9 amended: with the must-degrade-gracefully flag truthy, the evaluator
returns 0.0 exactly when `run.error` is truthy (a non-empty string — an
empty-string error is falsy and skips this branch), 1.0 when there is a
truthy main-text output, 0.5 when there is neither; without the flag it
returns 1.0. -/
theorem c9_amended (run : PyRun) (ex : PyExample) :
    ((dgetD ex.outputs "should_handle_gracefully" (.vbool false)).truthy = false →
      graceful_error_evaluator run ex = ⟨"graceful_error", .vnum 1, .vstr "Not an error case"⟩)
    ∧ ((dgetD ex.outputs "should_handle_gracefully" (.vbool false)).truthy = true →
        errTruthy run.error = true →
        graceful_error_evaluator run ex
          = ⟨"graceful_error", .vnum 0, .vstr ("Agent crashed: " ++ run.error.getD "")⟩)
    ∧ ((dgetD ex.outputs "should_handle_gracefully" (.vbool false)).truthy = true →
        errTruthy run.error = false →
        (anyOutput (run.outputs.getD [])).truthy = true →
        graceful_error_evaluator run ex
          = ⟨"graceful_error", .vnum 1, .vstr "Handled gracefully with output"⟩)
    ∧ ((dgetD ex.outputs "should_handle_gracefully" (.vbool false)).truthy = true →
        errTruthy run.error = false →
        (anyOutput (run.outputs.getD [])).truthy = false →
        graceful_error_evaluator run ex
          = ⟨"graceful_error", .vnum (1 / 2), .vstr "No crash but no output either"⟩) := by
  refine ⟨fun h1 => ?_, fun h1 h2 => ?_, fun h1 h2 h3 => ?_, fun h1 h2 h3 => ?_⟩ <;>
    simp [graceful_error_evaluator, h1] <;> simp [h2] <;> simp [h3]

/-- C9 amended, witness: a crashing run (`error="timeout"`) flagged as
must-degrade-gracefully scores exactly 0.0. -/
theorem c9_amended_witness :
    graceful_error_evaluator { error := some "timeout" } exGraceful
      = ⟨"graceful_error", .vnum 0, .vstr ("Agent crashed: " ++ "timeout")⟩ :=
  (c9_amended { error := some "timeout" } exGraceful).2.1 rfl rfl

/-- C10: passing `metrics=[]` disables filtering entirely (the Python
truthiness test `if metrics and ...` is false for an empty list), so the
result coincides with passing `metrics=None`. -/
theorem c10_empty_metrics (fetch : String → List CRun) (names : List String) :
    compare_experiments fetch names (some []) = compare_experiments fetch names none := by
  unfold compare_experiments
  have h : metricsSkip (some []) = metricsSkip none := by
    funext k
    simp [metricsSkip]
  rw [h]

/-- C4: (i) an experiment whose fetch returns no runs yields a printed
warning and is absent from the Aggregation (the model's `compare_experiments`
is a total function, so no exception escapes); (ii) a run with absent or
empty FeedbackStats contributes nothing to any metric; (iii) a run lacking
one metric key leaves that metric's aggregate unchanged, while (iv) each
metric the run does carry receives exactly the run's `avg` values ahead of
the remaining runs' contributions. -/
theorem c4_missing_data :
    (∀ (fetch : String → List CRun) metrics names n, n ∈ names → fetch n = [] →
      ("Warning: No runs found for " ++ n) ∈ (compare_experiments fetch names metrics).1
      ∧ aggLookup (compare_experiments fetch names metrics).2 n = none)
    ∧ (∀ metrics (r : CRun) runs, fbTruthy r.feedback_stats = false →
        expAverages (metricsSkip metrics) (r :: runs) = expAverages (metricsSkip metrics) runs)
    ∧ (∀ metrics (r : CRun) runs k, runContrib (metricsSkip metrics) k r = [] →
        aggLookup (expAverages (metricsSkip metrics) (r :: runs)) k
          = aggLookup (expAverages (metricsSkip metrics) runs) k)
    ∧ (∀ metrics (r : CRun) runs k, runContrib (metricsSkip metrics) k r ≠ [] →
        aggLookup (expAverages (metricsSkip metrics) (r :: runs)) k
          = some (meanQ (runContrib (metricsSkip metrics) k r
              ++ runsVals (metricsSkip metrics) k runs))) := by
  refine ⟨?_, ?_, ?_, ?_⟩
  · intro fetch metrics names n hn hf
    constructor
    · exact compareLoop_warning _ _ _ _ _ _ hn hf
    · unfold compare_experiments
      rw [compareLoop_lookup]
      simp [hf, aggLookup]
  · intro metrics r runs hr
    unfold expAverages
    simp [processRuns, hr]
  · intro metrics r runs k hr
    rw [expAverages_lookup, expAverages_lookup]
    have : runsVals (metricsSkip metrics) k (r :: runs)
        = runsVals (metricsSkip metrics) k runs := by
      simp [runsVals, hr]
    rw [this]
  · intro metrics r runs k hr
    rw [expAverages_lookup]
    have hv : runsVals (metricsSkip metrics) k (r :: runs)
        = runContrib (metricsSkip metrics) k r ++ runsVals (metricsSkip metrics) k runs := by
      simp [runsVals]
    rw [hv]
    cases hc : runContrib (metricsSkip metrics) k r with
    | nil => exact absurd hc hr
    | cons x xs => simp

/-- C4 witness: the `"ghost_exp"` scenario — a name whose fetch is empty
produces an observable warning and no Aggregation key; a stats-less run and
a run lacking metric `"m"` leave the aggregate for `"m"` unchanged. -/
theorem c4_witness :
    (("Warning: No runs found for " ++ "ghost_exp")
        ∈ (compare_experiments fetchE1 ["e1", "ghost_exp"] none).1
      ∧ aggLookup (compare_experiments fetchE1 ["e1", "ghost_exp"] none).2 "ghost_exp" = none)
    ∧ expAverages (metricsSkip none) (⟨some []⟩ :: [runM1])
        = expAverages (metricsSkip none) [runM1]
    ∧ aggLookup (expAverages (metricsSkip none) (⟨some [("x", [("avg", 1)])]⟩ :: [runM1])) "m"
        = aggLookup (expAverages (metricsSkip none) [runM1]) "m" := by
  refine ⟨c4_missing_data.1 fetchE1 none _ "ghost_exp" (by simp) (by rfl),
    c4_missing_data.2.1 none _ _ (by rfl), c4_missing_data.2.2.1 none _ _ "m" (by decide)⟩

/-- C5: the Aggregation is invariant, experiment by experiment and metric
by metric, under permuting the runs the fetch returns (the mean of the
collected per-run `avg`s does not depend on their order), and under
permuting the experiment-name list (the mapping keys by name). -/
theorem c5_permutation :
    (∀ (fetch fetch2 : String → List CRun) metrics names n k,
      (∀ m, List.Perm (fetch m) (fetch2 m)) →
      (aggLookup (compare_experiments fetch names metrics).2 n).isSome
        = (aggLookup (compare_experiments fetch2 names metrics).2 n).isSome
      ∧ aggVal (compare_experiments fetch names metrics).2 n k
          = aggVal (compare_experiments fetch2 names metrics).2 n k)
    ∧ (∀ (fetch : String → List CRun) metrics names names2 n k,
        List.Perm names names2 →
        (aggLookup (compare_experiments fetch names metrics).2 n).isSome
          = (aggLookup (compare_experiments fetch names2 metrics).2 n).isSome
        ∧ aggVal (compare_experiments fetch names metrics).2 n k
            = aggVal (compare_experiments fetch names2 metrics).2 n k) := by
  constructor
  · intro fetch fetch2 metrics names n k hp
    have hrv : ∀ key, List.Perm (runsVals (metricsSkip metrics) key (fetch n))
        (runsVals (metricsSkip metrics) key (fetch2 n)) := by
      intro key
      exact (hp n).flatMap_right _
    have hempty : fetch n = [] ↔ fetch2 n = [] := by
      constructor
      · intro h
        have h2 := hp n
        rw [h] at h2
        exact h2.symm.eq_nil
      · intro h
        have h2 := hp n
        rw [h] at h2
        exact h2.eq_nil
    have hlook : ∀ key, aggLookup (expAverages (metricsSkip metrics) (fetch n)) key
        = aggLookup (expAverages (metricsSkip metrics) (fetch2 n)) key := by
      intro key
      rw [expAverages_lookup, expAverages_lookup]
      have hsum := (hrv key).sum_eq
      have hlen := (hrv key).length_eq
      cases h1 : runsVals (metricsSkip metrics) key (fetch n) with
      | nil =>
          have : runsVals (metricsSkip metrics) key (fetch2 n) = [] := by
            have := hrv key; rw [h1] at this; exact this.symm.eq_nil
          rw [this]
      | cons x xs =>
          cases h2 : runsVals (metricsSkip metrics) key (fetch2 n) with
          | nil =>
              have := hrv key; rw [h1, h2] at this
              exact absurd this.eq_nil (by simp)
          | cons y ys =>
              rw [h1, h2] at hsum hlen
              simp [meanQ, hsum, hlen]
    unfold compare_experiments aggVal
    simp only [compareLoop_lookup]
    by_cases hc : n ∈ names ∧ fetch n ≠ []
    · have hc2 : n ∈ names ∧ fetch2 n ≠ [] := ⟨hc.1, fun h => hc.2 (hempty.mpr h)⟩
      rw [if_pos hc, if_pos hc2]
      exact ⟨rfl, by simpa using hlook k⟩
    · have hc2 : ¬(n ∈ names ∧ fetch2 n ≠ []) := by
        rintro ⟨h1, h2⟩
        exact hc ⟨h1, fun h => h2 (hempty.mp h)⟩
      rw [if_neg hc, if_neg hc2]
      exact ⟨rfl, rfl⟩
  · intro fetch metrics names names2 n k hp
    unfold compare_experiments aggVal
    simp only [compareLoop_lookup]
    have hmem : n ∈ names ↔ n ∈ names2 := hp.mem_iff
    by_cases hc : n ∈ names ∧ fetch n ≠ []
    · rw [if_pos hc, if_pos ⟨hmem.mp hc.1, hc.2⟩]
      exact ⟨rfl, rfl⟩
    · have hc2 : ¬(n ∈ names2 ∧ fetch n ≠ []) := by
        rintro ⟨h1, h2⟩
        exact hc ⟨hmem.mpr h1, h2⟩
      rw [if_neg hc, if_neg hc2]
      exact ⟨rfl, rfl⟩

/-- C5 witness: swapping the two runs of experiment `"e1"`, and reversing
the name list, leave presence and metric value unchanged at concrete
inputs. -/
theorem c5_witness :
    (aggVal (compare_experiments fetchE1 ["e1"] none).2 "e1" "m"
        = aggVal (compare_experiments fetchE1swap ["e1"] none).2 "e1" "m")
    ∧ (aggVal (compare_experiments fetchE1 ["e1", "g"] none).2 "e1" "m"
        = aggVal (compare_experiments fetchE1 ["g", "e1"] none).2 "e1" "m") := by
  constructor
  · refine (c5_permutation.1 fetchE1 fetchE1swap none ["e1"] "e1" "m" ?_).2
    intro m
    by_cases h : m = "e1"
    · subst h
      rw [show fetchE1 "e1" = [runM1, runM2] from rfl,
        show fetchE1swap "e1" = [runM2, runM1] from rfl]
      exact List.Perm.swap runM2 runM1 []
    · rw [show fetchE1 m = if m = "e1" then [runM1, runM2] else [] from rfl,
        show fetchE1swap m = if m = "e1" then [runM2, runM1] else [] from rfl,
        if_neg h, if_neg h]
  · exact (c5_permutation.2 fetchE1 none ["e1", "g"] ["g", "e1"] "e1" "m"
      (List.Perm.swap "g" "e1" [])).2

/-! ### Decimal-format evaluations used by the renderer claims -/

theorem fmt3_half : fmtFixed 3 (mkRat 1 2) = "0.500" := by
  have hq : (mkRat 1 2 : Rat) = 1 / 2 := by rw [Rat.mkRat_eq_div]; norm_num
  rw [show fmtFixed 3 (mkRat 1 2) = fmtFixed 3 (1 / 2) from by rw [hq]]
  simp only [fmtFixed]
  have h1 : ⌊|(1 : Rat) / 2| * (10 : Rat) ^ (3 : Nat) + 1 / 2⌋ = (500 : Int) := by
    rw [abs_of_nonneg (by norm_num : (0 : Rat) ≤ 1 / 2)]
    rw [show (1 : Rat) / 2 * (10 : Rat) ^ (3 : Nat) + 1 / 2 = 1001 / 2 from by norm_num]
    rw [Int.floor_eq_iff]
    norm_num
  rw [h1, if_neg (by norm_num : ¬((1 : Rat) / 2 < 0))]
  rfl

theorem fmt3_910 : fmtFixed 3 (mkRat 9 10) = "0.900" := by
  have hq : (mkRat 9 10 : Rat) = 9 / 10 := by rw [Rat.mkRat_eq_div]; norm_num
  rw [show fmtFixed 3 (mkRat 9 10) = fmtFixed 3 (9 / 10) from by rw [hq]]
  simp only [fmtFixed]
  have h1 : ⌊|(9 : Rat) / 10| * (10 : Rat) ^ (3 : Nat) + 1 / 2⌋ = (900 : Int) := by
    rw [abs_of_nonneg (by norm_num : (0 : Rat) ≤ 9 / 10)]
    rw [show (9 : Rat) / 10 * (10 : Rat) ^ (3 : Nat) + 1 / 2 = 1801 / 2 from by norm_num]
    rw [Int.floor_eq_iff]
    norm_num
  rw [h1, if_neg (by norm_num : ¬((9 : Rat) / 10 < 0))]
  rfl

/-- C6: in the document renderer, the overall recommendation always names
an experiment whose metric-sum is greatest (each experiment's total is the
sum of its present metric values, so absent metrics contribute 0); and on
the spec's A/B scenario the recommendation is A. -/
theorem c6_overall_winner :
    (∀ comparison : List (String × List (String × Rat)), comparison ≠ [] →
      ∃ w t, pyMaxBy (totalsOf comparison) = some (w, t)
        ∧ (w, t) ∈ totalsOf comparison
        ∧ (∀ p ∈ totalsOf comparison, p.2 ≤ t)
        ∧ ("- **Overall Best**: " ++ w ++ " (highest total score)")
            ∈ generateReportLines comparison)
    ∧ pyMaxBy (totalsOf comparisonAB) = some ("A", mkRat 9 10 + (mkRat 8 10 + 0))
    ∧ ("- **Overall Best**: " ++ "A" ++ " (highest total score)")
        ∈ generateReportLines comparisonAB := by
  have hab : pyMaxBy (totalsOf comparisonAB)
      = some ("A", mkRat 9 10 + (mkRat 8 10 + 0)) := by
    rw [show totalsOf comparisonAB = [("A", mkRat 9 10 + (mkRat 8 10 + 0)),
      ("B", mkRat 95 100 + (mkRat 4 10 + 0))] from rfl]
    simp only [pyMaxBy, List.foldl]
    rw [if_neg ?hgt]
    case hgt =>
      simp only [not_lt]
      rw [Rat.mkRat_eq_div, Rat.mkRat_eq_div, Rat.mkRat_eq_div, Rat.mkRat_eq_div]
      norm_num
  refine ⟨?_, hab, ?_⟩
  · intro comparison h
    have ht : totalsOf comparison ≠ [] := by
      simpa [totalsOf] using h
    obtain ⟨w, t, hmax, hmem, hbound⟩ := pyMaxBy_spec _ ht
    refine ⟨w, t, hmax, hmem, hbound, ?_⟩
    simp only [generateReportLines]
    rw [if_neg (by simpa using h), hmax]
    exact List.mem_append_right _ (by simp)
  · simp only [generateReportLines]
    rw [if_neg (by simp [comparisonAB]), hab]
    exact List.mem_append_right _ (by simp)

/-- C6 witness: the general winner property applied to the concrete A/B
scenario Aggregation. -/
theorem c6_witness :
    ∃ w t, pyMaxBy (totalsOf comparisonAB) = some (w, t)
      ∧ (w, t) ∈ totalsOf comparisonAB
      ∧ (∀ p ∈ totalsOf comparisonAB, p.2 ≤ t)
      ∧ ("- **Overall Best**: " ++ w ++ " (highest total score)")
          ∈ generateReportLines comparisonAB :=
  c6_overall_winner.1 comparisonAB (by simp [comparisonAB])

/-- C7 counterexample: with values 0.9, 0.9, 0.5 a best line *is* printed
(the values are not all tied) and it names `expA`, although `expA`'s value
is not strictly greater than `expB`'s — there is no strictly maximum
experiment, refuting the claim as stated. -/
theorem c7_counterexample :
    metricValues comparisonTie "m" = [mkRat 9 10, mkRat 9 10, mkRat 1 2]
    ∧ bestFor (comparisonTie.map (·.1)) (metricValues comparisonTie "m") = some "expA"
    ∧ ("  -> Best: " ++ "expA") ∈ print_comparison comparisonTie
    ∧ dgetD ((aggLookup comparisonTie "expB").getD []) "m" (0 : Rat)
        = dgetD ((aggLookup comparisonTie "expA").getD []) "m" (0 : Rat) := by
  have hb : bestFor (comparisonTie.map (·.1)) (metricValues comparisonTie "m")
      = some "expA" := by decide
  refine ⟨by decide, hb, ?_, by decide⟩
  simp only [print_comparison]
  rw [if_neg (by simp [comparisonTie])]
  refine List.mem_append_right _ (List.mem_flatMap.mpr ⟨"m", ?_, ?_⟩)
  · simp [metricKeys, List.mem_mergeSort, comparisonTie]
  · simp [hb]

/-- C7 amended: a best line is printed exactly when not all experiments'
values for the metric (absent keys read as 0) are identical; when printed
it names the first experiment attaining the maximum value, which is ≥
every experiment's value for that metric (and strictly maximal only when
the maximum is attained uniquely). -/
theorem c7_amended (comparison : List (String × List (String × Rat))) (metric : String)
    (h : comparison ≠ []) :
    ((bestFor (comparison.map (·.1)) (metricValues comparison metric)).isSome = true
       ↔ ¬ allEqQ (metricValues comparison metric))
    ∧ (∀ w, bestFor (comparison.map (·.1)) (metricValues comparison metric) = some w →
        (comparison.map (·.1))[(metricValues comparison metric).indexOf
            (maxList (metricValues comparison metric))]? = some w
        ∧ (metricValues comparison metric)[(metricValues comparison metric).indexOf
            (maxList (metricValues comparison metric))]?
            = some (maxList (metricValues comparison metric))
        ∧ ∀ v ∈ metricValues comparison metric, v ≤ maxList (metricValues comparison metric))
    ∧ (∀ w, metric ∈ metricKeys comparison →
        bestFor (comparison.map (·.1)) (metricValues comparison metric) = some w →
        ("  -> Best: " ++ w) ∈ print_comparison comparison) := by
  have hvne : metricValues comparison metric ≠ [] := by
    simpa [metricValues] using h
  have hmaxmem : maxList (metricValues comparison metric) ∈ metricValues comparison metric :=
    maxList_mem _ hvne
  refine ⟨?_, ?_, ?_⟩
  · unfold bestFor
    by_cases hc : maxList (metricValues comparison metric)
        = minList (metricValues comparison metric)
    · rw [if_neg (by simp [hc])]
      simp only [Option.isSome_none, Bool.false_eq_true, false_iff, not_not]
      exact (maxList_eq_minList_iff _ hvne).mp hc
    · rw [if_pos (by simp [hvne, hc])]
      constructor
      · intro _
        exact fun ha => hc ((maxList_eq_minList_iff _ hvne).mpr ha)
      · intro _
        have hidx : (metricValues comparison metric).indexOf
            (maxList (metricValues comparison metric))
            < (metricValues comparison metric).length :=
          List.indexOf_lt_length.mpr hmaxmem
        have hlen : (comparison.map (·.1)).length
            = (metricValues comparison metric).length := by
          simp [metricValues]
        rw [List.getElem?_eq_getElem (by rw [hlen]; exact hidx)]
        rfl
  · intro w hw
    unfold bestFor at hw
    by_cases hcond : (!(metricValues comparison metric).isEmpty
        && (maxList (metricValues comparison metric)
          != minList (metricValues comparison metric))) = true
    · rw [if_pos hcond] at hw
      exact ⟨hw, List.getElem?_indexOf hmaxmem, fun v hv => le_maxList _ v hv⟩
    · rw [if_neg hcond] at hw
      cases hw
  · intro w hm hw
    simp only [print_comparison]
    rw [if_neg (by simpa using h)]
    refine List.mem_append_right _ (List.mem_flatMap.mpr ⟨metric, hm, ?_⟩)
    simp [hw]

/-- C7 amended, witness: on the A/B scenario and metric `accuracy` the best
line is printed and names B. -/
theorem c7_witness :
    ((bestFor (comparisonAB.map (·.1)) (metricValues comparisonAB "accuracy")).isSome = true
       ↔ ¬ allEqQ (metricValues comparisonAB "accuracy"))
    ∧ ("  -> Best: " ++ "B") ∈ print_comparison comparisonAB := by
  refine ⟨(c7_amended comparisonAB "accuracy" (by simp [comparisonAB])).1, ?_⟩
  refine (c7_amended comparisonAB "accuracy" (by simp [comparisonAB])).2.2 "B" ?_ (by decide)
  simp [metricKeys, List.mem_mergeSort, comparisonAB]

/-- C8: the claim (and the code's own comment, "Bold the best value") says
a cell is bolded iff it equals the metric's maximum over all experiments;
the code instead compares each cell against the maximum of the *prefix*
processed so far, so on `A={m:0.5}, B={m:0.9}` the A cell 0.500 is bolded
even though the row maximum is 0.900. -/
theorem c8_bold_prefix_bug :
    reportRow comparisonBold "m" = "| m | **0.500** | **0.900** |"
    ∧ ("| m | **0.500** | **0.900** |") ∈ generateReportLines comparisonBold
    ∧ metricValues comparisonBold "m" = [mkRat 1 2, mkRat 9 10]
    ∧ maxList (metricValues comparisonBold "m") = mkRat 9 10
    ∧ mkRat 1 2 ≠ mkRat 9 10 := by
  have hm1 : maxList ([] ++ [mkRat 1 2]) = mkRat 1 2 := by decide
  have hm2 : maxList (([] ++ [mkRat 1 2]) ++ [mkRat 9 10]) = mkRat 9 10 := by decide
  have hd1 : dgetD [("m", mkRat 1 2)] "m" (0 : Rat) = mkRat 1 2 := by decide
  have hd2 : dgetD [("m", mkRat 9 10)] "m" (0 : Rat) = mkRat 9 10 := by decide
  have hrow : reportRow comparisonBold "m" = "| m | **0.500** | **0.900** |" := by
    simp only [reportRow, comparisonBold, reportRowAux, hd1, hd2, hm1, hm2, if_pos rfl]
    rw [fmt3_half, fmt3_910]
    rfl
  refine ⟨hrow, ?_, by decide, by decide, by decide⟩
  have hk : "m" ∈ metricKeys comparisonBold := by
    simp [metricKeys, List.mem_mergeSort, comparisonBold]
  simp only [generateReportLines]
  rw [if_neg (by simp [comparisonBold])]
  exact List.mem_append_left _ (List.mem_append_left _
    (List.mem_append_right _ (List.mem_map.mpr ⟨"m", hk, hrow⟩)))

/-- C2 counterexample: a judge reply whose score field is 10 (outside the
documented 1-5 scale) makes `quality_evaluator` return score 10/5 = 2,
which is not in [0,1] — no clamping happens. -/
theorem c2_counterexample :
    quality_evaluator judgeTen runHello ⟨[]⟩
      = .ok ⟨"quality", .vnum ((10 : Rat) / 5), .vstr ""⟩
    ∧ (10 : Rat) / 5 = 2
    ∧ ¬ scoreIn01 (Value.vnum ((10 : Rat) / 5)) := by
  refine ⟨rfl, by norm_num, ?_⟩
  rintro ⟨q, hq, h0, h1⟩
  injection hq with h2
  rw [← h2] at h1
  norm_num at h1

/-- C2 amended: every evaluator's returned score is a number in [0,1],
provided the inputs are in range: a non-negative `min_report_length`,
`start_time ≤ end_time`, positive latency/token thresholds, a non-negative
token count, and judge replies whose numeric score lies in the documented
scale ([0,5] before the /5 normalization for quality/relevance, [0,1] for
the consistency evaluator, whose score field must be numeric when present).
Without these provisos the score can leave [0,1]. -/
theorem c2_amended :
    (∀ run ex r, schema_evaluator run ex = .ok r → scoreIn01 r.score)
    ∧ (∀ run ex r, keyword_coverage_evaluator run ex = .ok r → scoreIn01 r.score)
    ∧ (∀ run ex r, (∀ q, dgetD ex.outputs "min_report_length" (.vnum 0) = .vnum q → 0 ≤ q) →
        report_length_evaluator run ex = .ok r → scoreIn01 r.score)
    ∧ (∀ run ex, scoreIn01 (graceful_error_evaluator run ex).score)
    ∧ (∀ run ex r, (∀ s e, run.start_time = some s → run.end_time = some e → s ≤ e) →
        (∀ q, toNum (dgetD ex.outputs "max_latency_seconds" (.vnum 30)) = some q → 0 < q) →
        latency_evaluator run ex = .ok r → scoreIn01 r.score)
    ∧ (∀ run ex r,
        (∀ tv q, pyDictGet (dgetD (run.extra.getD []) "token_usage" (.vdict []))
            "total_tokens" (.vnum 0) = .ok tv → toNum tv = some q → 0 ≤ q) →
        (∀ q, toNum (dgetD ex.outputs "max_tokens" (.vnum 10000)) = some q → 0 < q) →
        token_efficiency_evaluator run ex = .ok r → scoreIn01 r.score)
    ∧ (∀ (judge : Judge) run ex r,
        (∀ p v sv q, judge p = .ok v → pySubscript v "score" = .ok sv →
          toNum sv = some q → 0 ≤ q ∧ q ≤ 5) →
        quality_evaluator judge run ex = .ok r → scoreIn01 r.score)
    ∧ (∀ (judge : Judge) run ex r,
        (∀ p v sv q, judge p = .ok v → pySubscript v "score" = .ok sv →
          toNum sv = some q → 0 ≤ q ∧ q ≤ 5) →
        relevance_evaluator judge run ex = .ok r → scoreIn01 r.score)
    ∧ (∀ (judge : Judge) run ex r,
        (∀ p d, judge p = .ok (.vdict d) →
          ∃ q, dgetD d "score" (.vnum (1 / 2)) = .vnum q ∧ 0 ≤ q ∧ q ≤ 1) →
        input_data_consistency_evaluator judge run ex = .ok r → scoreIn01 r.score)
    ∧ (∀ run ex r, needs_human_review run ex = .ok r → scoreIn01 r.score) := by
  refine ⟨?_, ?_, ?_, ?_, ?_, ?_, ?_, ?_, ?_, ?_⟩
  · -- schema
    intro run ex r h
    simp only [schema_evaluator] at h
    by_cases ht : (dgetD ex.outputs "expected_fields" (.vlist [])).truthy
    · rw [if_neg (by simp [ht])] at h
      cases hi : pyIter (dgetD ex.outputs "expected_fields" (.vlist [])) with
      | error e => rw [hi] at h; cases h
      | ok items =>
          rw [hi] at h
          simp only [] at h
          cases hpf : presentFields (run.outputs.getD []) items with
          | error e => rw [hpf] at h; cases h
          | ok present =>
              rw [hpf] at h
              simp only [] at h
              rw [pyIter_pyLen _ _ hi] at h
              injection h with h1
              rw [← h1]
              have hle := presentFields_length _ _ _ hpf
              have hne := pyIter_ne_nil _ _ ht hi
              have hpos : 0 < items.length := List.length_pos.mpr hne
              refine ⟨(present.length : Rat) / (items.length : Rat), rfl,
                div_nonneg (by positivity) (by positivity), ?_⟩
              rw [div_le_one (by exact_mod_cast hpos)]
              exact_mod_cast hle
    · rw [if_pos (by simp [ht])] at h
      injection h with h1
      rw [← h1]
      exact ⟨1, rfl, by norm_num, le_refl 1⟩
  · -- keyword coverage
    intro run ex r h
    simp only [keyword_coverage_evaluator] at h
    by_cases ht : (dgetD ex.outputs "should_mention" (.vlist [])).truthy
    · rw [if_neg (by simp [ht])] at h
      cases hi : pyIter (dgetD ex.outputs "should_mention" (.vlist [])) with
      | error e => rw [hi] at h; cases h
      | ok kws =>
          rw [hi] at h
          simp only [] at h
          cases hks : kwSplit ((jsonDumps (.vdict (run.outputs.getD []))).toLower) kws with
          | error e => rw [hks] at h; cases h
          | ok pr =>
              obtain ⟨found, missing⟩ := pr
              rw [hks] at h
              simp only [] at h
              rw [pyIter_pyLen _ _ hi] at h
              injection h with h1
              rw [← h1]
              have hle := kwSplit_length _ _ _ _ hks
              have hne := pyIter_ne_nil _ _ ht hi
              have hpos : 0 < kws.length := List.length_pos.mpr hne
              refine ⟨(found.length : Rat) / (kws.length : Rat), rfl,
                div_nonneg (by positivity) (by positivity), ?_⟩
              rw [div_le_one (by exact_mod_cast hpos)]
              exact_mod_cast hle
    · rw [if_pos (by simp [ht])] at h
      injection h with h1
      rw [← h1]
      exact ⟨1, rfl, by norm_num, le_refl 1⟩
  · -- report length
    intro run ex r hmin h
    simp only [report_length_evaluator] at h
    by_cases ht : (dgetD ex.outputs "min_report_length" (.vnum 0)).truthy
    · rw [if_neg (by simp [ht])] at h
      cases hl : pyLen (mainText (run.outputs.getD [])) with
      | error e => rw [hl] at h; cases h
      | ok actual =>
          rw [hl] at h
          simp only [] at h
          cases hd : pyDivQ (actual : Rat) (dgetD ex.outputs "min_report_length" (.vnum 0)) with
          | error e => rw [hd] at h; cases h
          | ok ratio =>
              rw [hd] at h
              injection h with h1
              rw [← h1]
              simp only [pyDivQ] at hd
              cases hm : toNum (dgetD ex.outputs "min_report_length" (.vnum 0)) with
              | none => rw [hm] at hd; cases hd
              | some m =>
                  rw [hm] at hd
                  simp only [] at hd
                  by_cases hz : m = 0
                  · rw [if_pos hz] at hd; cases hd
                  · rw [if_neg hz] at hd
                    injection hd with hd1
                    have hmpos : 0 < m := by
                      cases hv : dgetD ex.outputs "min_report_length" (.vnum 0) with
                      | vnum q =>
                          rw [hv] at hm
                          injection hm with hm1
                          have := hmin q hv
                          rw [← hm1] at hz ⊢
                          exact lt_of_le_of_ne this (fun he => hz he.symm)
                      | vbool b =>
                          rw [hv] at hm
                          injection hm with hm1
                          cases b with
                          | true => rw [← hm1]; norm_num
                          | false => rw [← hm1] at hz; simp at hz
                      | vnone => rw [hv] at hm; cases hm
                      | vstr s => rw [hv] at hm; cases hm
                      | vlist l => rw [hv] at hm; cases hm
                      | vdict d => rw [hv] at hm; cases hm
                    have hr0 : 0 ≤ ratio := by
                      rw [← hd1]
                      exact div_nonneg (by positivity) (le_of_lt hmpos)
                    exact ⟨min 1 ratio, rfl, le_min (by norm_num) hr0, min_le_left 1 ratio⟩
    · rw [if_pos (by simp [ht])] at h
      injection h with h1
      rw [← h1]
      exact ⟨1, rfl, by norm_num, le_refl 1⟩
  · -- graceful degradation
    intro run ex
    simp only [graceful_error_evaluator]
    split
    · exact ⟨1, rfl, by norm_num, le_refl 1⟩
    · split
      · exact ⟨0, rfl, le_refl 0, by norm_num⟩
      · split
        · exact ⟨1, rfl, by norm_num, le_refl 1⟩
        · exact ⟨1 / 2, rfl, by norm_num, by norm_num⟩
  · -- latency
    intro run ex r hts hth h
    simp only [latency_evaluator] at h
    cases hst : run.start_time with
    | none => rw [hst] at h; injection h with h1; rw [← h1]; exact ⟨1 / 2, rfl, by norm_num, by norm_num⟩
    | some s =>
        cases het : run.end_time with
        | none => rw [hst, het] at h; injection h with h1; rw [← h1]; exact ⟨1 / 2, rfl, by norm_num, by norm_num⟩
        | some e =>
            rw [hst, het] at h
            simp only [] at h
            cases hd : pyDivQ (e - s) (dgetD ex.outputs "max_latency_seconds" (.vnum 30)) with
            | error err => rw [hd] at h; cases h
            | ok ratio =>
                rw [hd] at h
                injection h with h1
                rw [← h1]
                simp only [pyDivQ] at hd
                cases hm : toNum (dgetD ex.outputs "max_latency_seconds" (.vnum 30)) with
                | none => rw [hm] at hd; cases hd
                | some m =>
                    rw [hm] at hd
                    simp only [] at hd
                    by_cases hz : m = 0
                    · rw [if_pos hz] at hd; cases hd
                    · rw [if_neg hz] at hd
                      injection hd with hd1
                      have hse : s ≤ e := hts s e hst het
                      have hmpos : 0 < m := hth m hm
                      have hr0 : 0 ≤ ratio := by
                        rw [← hd1]
                        exact div_nonneg (by linarith) (le_of_lt hmpos)
                      exact ⟨max 0 (1 - ratio), rfl, le_max_left 0 _,
                        max_le (by norm_num) (by linarith)⟩
  · -- token efficiency
    intro run ex r htk hth h
    simp only [token_efficiency_evaluator] at h
    cases hg : pyDictGet (dgetD (run.extra.getD []) "token_usage" (.vdict []))
        "total_tokens" (.vnum 0) with
    | error e => rw [hg] at h; cases h
    | ok tv =>
        rw [hg] at h
        simp only [] at h
        by_cases htt : tv.truthy
        · rw [if_neg (by simp [htt])] at h
          cases hd : pyDivVQ tv (dgetD ex.outputs "max_tokens" (.vnum 10000)) with
          | error e => rw [hd] at h; cases h
          | ok ratio =>
              rw [hd] at h
              injection h with h1
              rw [← h1]
              simp only [pyDivVQ] at hd
              cases hx : toNum tv with
              | none => rw [hx] at hd; cases hd
              | some t =>
                  rw [hx] at hd
                  simp only [] at hd
                  simp only [pyDivQ] at hd
                  cases hm : toNum (dgetD ex.outputs "max_tokens" (.vnum 10000)) with
                  | none => rw [hm] at hd; cases hd
                  | some m =>
                      rw [hm] at hd
                      simp only [] at hd
                      by_cases hz : m = 0
                      · rw [if_pos hz] at hd; cases hd
                      · rw [if_neg hz] at hd
                        injection hd with hd1
                        have ht0 : 0 ≤ t := htk tv t hg hx
                        have hmpos : 0 < m := hth m hm
                        have hr0 : 0 ≤ ratio := by
                          rw [← hd1]
                          exact div_nonneg ht0 (le_of_lt hmpos)
                        exact ⟨max 0 (1 - ratio), rfl, le_max_left 0 _,
                          max_le (by norm_num) (by linarith)⟩
        · rw [if_pos (by simp [htt])] at h
          injection h with h1
          rw [← h1]
          exact ⟨1 / 2, rfl, by norm_num, by norm_num⟩
  · -- quality (LLM judge)
    intro judge run ex r hj h
    simp only [quality_evaluator] at h
    by_cases ht : (mainText (run.outputs.getD [])).truthy
    · rw [if_neg (by simp [ht])] at h
      cases hp : qualityPrompt (mainText (run.outputs.getD [])) with
      | error e => rw [hp] at h; cases h
      | ok p =>
          rw [hp] at h
          injection h with h1
          rw [← h1]
          simp only [judgeScoreTry]
          cases hj1 : judge p with
          | error e => exact ⟨1 / 2, rfl, by norm_num, by norm_num⟩
          | ok v =>
              simp only [hj1]
              cases hs : pySubscript v "score" with
              | error e => exact ⟨1 / 2, rfl, by norm_num, by norm_num⟩
              | ok sv =>
                  simp only [hs]
                  cases hx : toNum sv with
                  | none =>
                      simp only [pyDivVQ, hx]
                      exact ⟨1 / 2, rfl, by norm_num, by norm_num⟩
                  | some x =>
                      have hb := hj p v sv x hj1 hs hx
                      simp only [pyDivVQ]
                      rw [hx]
                      simp only [pyDivQ, toNum]
                      rw [if_neg (by norm_num : ¬((5 : Rat) = 0))]
                      cases hr2 : pyDictGet v "reasoning" (.vstr "") with
                      | error e => exact ⟨1 / 2, rfl, by norm_num, by norm_num⟩
                      | ok rs =>
                          exact ⟨x / 5, rfl, div_nonneg hb.1 (by norm_num),
                            (div_le_one (by norm_num)).mpr hb.2⟩
    · rw [if_pos (by simp [ht])] at h
      injection h with h1
      rw [← h1]
      exact ⟨0, rfl, le_refl 0, by norm_num⟩
  · -- relevance (LLM judge)
    intro judge run ex r hj h
    simp only [relevance_evaluator] at h
    by_cases ht : (mainText (run.outputs.getD [])).truthy
    · rw [if_neg (by simp [ht])] at h
      cases hp : relevancePrompt (pyOr (dgetD (run.inputs.getD []) "query" (.vstr ""))
          (pyOr (dgetD (run.inputs.getD []) "target" (.vstr ""))
            (.vstr ((pyFormat (.vdict (run.inputs.getD []))).take 500))))
          (mainText (run.outputs.getD [])) with
      | error e => rw [hp] at h; cases h
      | ok p =>
          rw [hp] at h
          injection h with h1
          rw [← h1]
          simp only [judgeScoreTry]
          cases hj1 : judge p with
          | error e => exact ⟨1 / 2, rfl, by norm_num, by norm_num⟩
          | ok v =>
              simp only [hj1]
              cases hs : pySubscript v "score" with
              | error e => exact ⟨1 / 2, rfl, by norm_num, by norm_num⟩
              | ok sv =>
                  simp only [hs]
                  cases hx : toNum sv with
                  | none =>
                      simp only [pyDivVQ, hx]
                      exact ⟨1 / 2, rfl, by norm_num, by norm_num⟩
                  | some x =>
                      have hb := hj p v sv x hj1 hs hx
                      simp only [pyDivVQ]
                      rw [hx]
                      simp only [pyDivQ, toNum]
                      rw [if_neg (by norm_num : ¬((5 : Rat) = 0))]
                      cases hr2 : pyDictGet v "reasoning" (.vstr "") with
                      | error e => exact ⟨1 / 2, rfl, by norm_num, by norm_num⟩
                      | ok rs =>
                          exact ⟨x / 5, rfl, div_nonneg hb.1 (by norm_num),
                            (div_le_one (by norm_num)).mpr hb.2⟩
    · rw [if_pos (by simp [ht])] at h
      injection h with h1
      rw [← h1]
      exact ⟨0, rfl, le_refl 0, by norm_num⟩
  · -- input-data consistency (LLM judge)
    intro judge run ex r hj h
    simp only [input_data_consistency_evaluator] at h
    by_cases hv : (!(mainText (run.outputs.getD [])).truthy
        || !(pyOr (dgetD (run.inputs.getD []) "company_name" (.vstr ""))
              (dgetD (run.inputs.getD []) "company" (.vstr ""))).truthy) = true
    · rw [if_pos hv] at h
      injection h with h1
      rw [← h1]
      exact ⟨1, rfl, by norm_num, le_refl 1⟩
    · rw [if_neg hv] at h
      cases hp : consistencyPrompt
          (pyOr (dgetD (run.inputs.getD []) "linkedin_url" (.vstr ""))
            (dgetD (run.inputs.getD []) "target" (.vstr "")))
          (pyOr (dgetD (run.inputs.getD []) "company_name" (.vstr ""))
            (dgetD (run.inputs.getD []) "company" (.vstr "")))
          (mainText (run.outputs.getD [])) with
      | error e => rw [hp] at h; cases h
      | ok p =>
          rw [hp] at h
          injection h with h1
          rw [← h1]
          cases hj1 : judge p with
          | error e => simp only [hj1]; exact ⟨1 / 2, rfl, by norm_num, by norm_num⟩
          | ok v =>
              simp only [hj1]
              cases v with
              | vdict d =>
                  simp only [pyDictGet]
                  obtain ⟨q, hqe, h0, h1q⟩ := hj p d hj1
                  rw [hqe]
                  exact ⟨q, rfl, h0, h1q⟩
              | vnone => simp only [pyDictGet]; exact ⟨1 / 2, rfl, by norm_num, by norm_num⟩
              | vbool b => simp only [pyDictGet]; exact ⟨1 / 2, rfl, by norm_num, by norm_num⟩
              | vnum q => simp only [pyDictGet]; exact ⟨1 / 2, rfl, by norm_num, by norm_num⟩
              | vstr s => simp only [pyDictGet]; exact ⟨1 / 2, rfl, by norm_num, by norm_num⟩
              | vlist l => simp only [pyDictGet]; exact ⟨1 / 2, rfl, by norm_num, by norm_num⟩
  · -- human-review flag
    intro run ex r h
    simp only [needs_human_review] at h
    cases hl : pyLen (mainText (run.outputs.getD [])) with
    | error e => rw [hl] at h; cases h
    | ok n =>
        rw [hl] at h
        simp only [] at h
        by_cases hn : n < 200
        · rw [if_pos hn] at h
          injection h with h1
          rw [← h1]
          exact ⟨0, rfl, le_refl 0, by norm_num⟩
        · rw [if_neg hn] at h
          cases hlo : pyLowerV (mainText (run.outputs.getD [])) with
          | error e => rw [hlo] at h; cases h
          | ok s =>
              rw [hlo] at h
              simp only [] at h
              split at h <;> (injection h with h1; rw [← h1])
              · exact ⟨0, rfl, le_refl 0, by norm_num⟩
              · exact ⟨1, rfl, by norm_num, le_refl 1⟩

/-- C2 amended, witness: the bound holds at concrete inputs for each of the
ten evaluators (sentinel and vacuous paths with in-range data). -/
theorem c2_witness :
    scoreIn01 (Value.vnum 1) ∧ scoreIn01 (Value.vnum (1 / 2)) ∧ scoreIn01 (Value.vnum 0) := by
  refine ⟨?_, ?_, ?_⟩
  · exact c2_amended.1 runHello ⟨[]⟩ ⟨"schema_valid", .vnum 1, .vstr "No expected fields defined"⟩ rfl
  · exact c2_amended.2.2.2.2.1 runHello ⟨[]⟩
      ⟨"latency_seconds", .vnum (1 / 2), .vstr "No timing data available"⟩
      (fun s e hs _ => by cases hs)
      (fun q hq => by injection hq with h1; rw [← h1]; norm_num) rfl
  · exact c2_amended.2.2.2.2.2.2.2.2.2 runHello ⟨[]⟩
      ⟨"needs_human_review", .vnum 0, .vstr "Flagged for human review"⟩ rfl

/-- C3 counterexample: with an empty main output (and a company claimed in
the inputs), the input-data consistency evaluator returns score 1.0
("vacuously satisfied"), not the claimed 0.0 — and it never invokes the
judge (the judge here raises on any call). -/
theorem c3_counterexample :
    input_data_consistency_evaluator judgeBoom runNoReport ⟨[]⟩
      = .ok ⟨"input_data_consistency", .vnum 1, .vstr "No company/report to verify"⟩
    ∧ (1 : Rat) ≠ 0 := ⟨rfl, by norm_num⟩

theorem vstr_truthy (s : String) (hne : s ≠ "") : (Value.vstr s).truthy = true := by
  by_cases hb : s.isEmpty
  · exact absurd ((String.isEmpty_iff _).mp hb) hne
  · simp [Value.truthy, hb]

/-- C3 amended: for each judge-backed evaluator, a judge stub that raises
on every invocation yields the 0.5 sentinel with the failure reason in the
comment, and a reply that is not a JSON object with a score field yields
0.5 (with the failure reason for quality/relevance and for a non-object
consistency reply; a consistency reply that is an object merely missing
the score field keeps the ordinary non-empty mismatch comment).  An empty
main output yields 0.0 for quality and relevance and 1.0 for input-data
consistency, in all cases without invoking the judge. -/
theorem c3_amended :
    (∀ (judge : Judge) run ex s e, (∀ pr, judge pr = .error e) →
      mainText (run.outputs.getD []) = .vstr s → s ≠ "" →
      quality_evaluator judge run ex
        = .ok ⟨"quality", .vnum (1 / 2), .vstr ("Judge error: " ++ e)⟩)
    ∧ (∀ (judge : Judge) run ex s v e, (∀ pr, judge pr = .ok v) →
        pySubscript v "score" = .error e →
        mainText (run.outputs.getD []) = .vstr s → s ≠ "" →
        quality_evaluator judge run ex
          = .ok ⟨"quality", .vnum (1 / 2), .vstr ("Judge error: " ++ e)⟩)
    ∧ (∀ (judge : Judge) run ex, (mainText (run.outputs.getD [])).truthy = false →
        quality_evaluator judge run ex
          = .ok ⟨"quality", .vnum 0, .vstr "No output to evaluate"⟩)
    ∧ (∀ (judge : Judge) run ex s e, (∀ pr, judge pr = .error e) →
        mainText (run.outputs.getD []) = .vstr s → s ≠ "" →
        relevance_evaluator judge run ex
          = .ok ⟨"relevance", .vnum (1 / 2), .vstr ("Judge error: " ++ e)⟩)
    ∧ (∀ (judge : Judge) run ex s v e, (∀ pr, judge pr = .ok v) →
        pySubscript v "score" = .error e →
        mainText (run.outputs.getD []) = .vstr s → s ≠ "" →
        relevance_evaluator judge run ex
          = .ok ⟨"relevance", .vnum (1 / 2), .vstr ("Judge error: " ++ e)⟩)
    ∧ (∀ (judge : Judge) run ex, (mainText (run.outputs.getD [])).truthy = false →
        relevance_evaluator judge run ex
          = .ok ⟨"relevance", .vnum 0, .vstr "No output to evaluate"⟩)
    ∧ (∀ (judge : Judge) run ex s e, (∀ pr, judge pr = .error e) →
        mainText (run.outputs.getD []) = .vstr s → s ≠ "" →
        (pyOr (dgetD (run.inputs.getD []) "company_name" (.vstr ""))
          (dgetD (run.inputs.getD []) "company" (.vstr ""))).truthy = true →
        input_data_consistency_evaluator judge run ex
          = .ok ⟨"input_data_consistency", .vnum (1 / 2), .vstr ("Judge error: " ++ e)⟩)
    ∧ (∀ (judge : Judge) run ex s v e, (∀ pr, judge pr = .ok v) →
        pyDictGet v "score" (.vnum (1 / 2)) = .error e →
        mainText (run.outputs.getD []) = .vstr s → s ≠ "" →
        (pyOr (dgetD (run.inputs.getD []) "company_name" (.vstr ""))
          (dgetD (run.inputs.getD []) "company" (.vstr ""))).truthy = true →
        input_data_consistency_evaluator judge run ex
          = .ok ⟨"input_data_consistency", .vnum (1 / 2), .vstr ("Judge error: " ++ e)⟩)
    ∧ (∀ (judge : Judge) run ex s d, (∀ pr, judge pr = .ok (.vdict d)) →
        aggLookup d "score" = none →
        mainText (run.outputs.getD []) = .vstr s → s ≠ "" →
        (pyOr (dgetD (run.inputs.getD []) "company_name" (.vstr ""))
          (dgetD (run.inputs.getD []) "company" (.vstr ""))).truthy = true →
        input_data_consistency_evaluator judge run ex
          = .ok ⟨"input_data_consistency", .vnum (1 / 2),
              .vstr ("Mismatch: " ++ pyFormat (dgetD d "mismatch_found" (.vstr "unknown"))
                ++ " - " ++ pyFormat (dgetD d "reasoning" (.vstr "")))⟩)
    ∧ (∀ (judge : Judge) run ex, (mainText (run.outputs.getD [])).truthy = false →
        input_data_consistency_evaluator judge run ex
          = .ok ⟨"input_data_consistency", .vnum 1, .vstr "No company/report to verify"⟩) := by
  refine ⟨?_, ?_, ?_, ?_, ?_, ?_, ?_, ?_, ?_, ?_⟩
  · intro judge run ex s e hj hs hne
    simp only [quality_evaluator, hs]
    rw [if_neg (by simp [vstr_truthy s hne])]
    simp only [qualityPrompt, pySlice]
    simp only [judgeScoreTry, hj]
  · intro judge run ex s v e hj hsub hs hne
    simp only [quality_evaluator, hs]
    rw [if_neg (by simp [vstr_truthy s hne])]
    simp only [qualityPrompt, pySlice]
    simp only [judgeScoreTry, hj, hsub]
  · intro judge run ex ht
    simp only [quality_evaluator]
    rw [if_pos (by simp [ht])]
  · intro judge run ex s e hj hs hne
    simp only [relevance_evaluator, hs]
    rw [if_neg (by simp [vstr_truthy s hne])]
    simp only [relevancePrompt, pySlice]
    simp only [judgeScoreTry, hj]
  · intro judge run ex s v e hj hsub hs hne
    simp only [relevance_evaluator, hs]
    rw [if_neg (by simp [vstr_truthy s hne])]
    simp only [relevancePrompt, pySlice]
    simp only [judgeScoreTry, hj, hsub]
  · intro judge run ex ht
    simp only [relevance_evaluator]
    rw [if_pos (by simp [ht])]
  · intro judge run ex s e hj hs hne hc
    simp only [input_data_consistency_evaluator, hs]
    rw [if_neg (by simp [vstr_truthy s hne, hc])]
    simp only [consistencyPrompt, pySlice]
    simp only [hj]
  · intro judge run ex s v e hj hsub hs hne hc
    simp only [input_data_consistency_evaluator, hs]
    rw [if_neg (by simp [vstr_truthy s hne, hc])]
    simp only [consistencyPrompt, pySlice]
    simp only [hj, hsub]
  · intro judge run ex s d hj hmiss hs hne hc
    have hsc : dgetD d "score" (Value.vnum (1 / 2)) = .vnum (1 / 2) := by
      rw [dgetD_eq_aggLookup, hmiss]
      rfl
    simp only [input_data_consistency_evaluator, hs]
    rw [if_neg (by simp [vstr_truthy s hne, hc])]
    simp only [consistencyPrompt, pySlice]
    simp only [hj, pyDictGet, hsc]
  · intro judge run ex ht
    simp only [input_data_consistency_evaluator]
    rw [if_pos (by simp [ht])]

/-- C3 amended, witness: concrete judge stubs — one that raises, one whose
reply lacks the score field — against concrete runs, plus the
empty-output cases for all three evaluators. -/
theorem c3_witness :
    quality_evaluator judgeBoom runHello ⟨[]⟩
      = .ok ⟨"quality", .vnum (1 / 2), .vstr ("Judge error: " ++ "boom")⟩
    ∧ relevance_evaluator judgeBoom runHello ⟨[]⟩
        = .ok ⟨"relevance", .vnum (1 / 2), .vstr ("Judge error: " ++ "boom")⟩
    ∧ input_data_consistency_evaluator judgeBoom runAcme ⟨[]⟩
        = .ok ⟨"input_data_consistency", .vnum (1 / 2), .vstr ("Judge error: " ++ "boom")⟩
    ∧ input_data_consistency_evaluator judgeNoScore runAcme ⟨[]⟩
        = .ok ⟨"input_data_consistency", .vnum (1 / 2),
            .vstr ("Mismatch: " ++ pyFormat (dgetD [("reasoning", Value.vstr "hm")]
              "mismatch_found" (.vstr "unknown"))
              ++ " - " ++ pyFormat (dgetD [("reasoning", Value.vstr "hm")]
                "reasoning" (.vstr "")))⟩
    ∧ quality_evaluator judgeBoom { outputs := some [] } ⟨[]⟩
        = .ok ⟨"quality", .vnum 0, .vstr "No output to evaluate"⟩
    ∧ input_data_consistency_evaluator judgeBoom { outputs := some [] } ⟨[]⟩
        = .ok ⟨"input_data_consistency", .vnum 1, .vstr "No company/report to verify"⟩ := by
  refine ⟨?_, ?_, ?_, ?_, ?_, ?_⟩
  · exact c3_amended.1 judgeBoom runHello ⟨[]⟩ "hello" "boom" (fun pr => rfl) rfl (by decide)
  · exact c3_amended.2.2.2.1 judgeBoom runHello ⟨[]⟩ "hello" "boom" (fun pr => rfl) rfl (by decide)
  · exact c3_amended.2.2.2.2.2.2.1 judgeBoom runAcme ⟨[]⟩ "report text" "boom"
      (fun pr => rfl) rfl (by decide) rfl
  · exact c3_amended.2.2.2.2.2.2.2.2.1 judgeNoScore runAcme ⟨[]⟩ "report text"
      [("reasoning", Value.vstr "hm")] (fun pr => rfl) rfl rfl (by decide) rfl
  · exact c3_amended.2.2.1 judgeBoom { outputs := some [] } ⟨[]⟩ rfl
  · exact c3_amended.2.2.2.2.2.2.2.2.2 judgeBoom { outputs := some [] } ⟨[]⟩ rfl

end EvalCoach
